import Mathlib

/-!
Shallow embedding of the pepper-ws relay server (src/server.js).

The server is a single-threaded WebSocket relay: rooms are identified by a
short code, each room has a host that publishes versioned opaque state,
guests claim seats and chat.  All handlers run to completion before the next
event, so the whole server is modelled as a pure step function
`stepEv : ServerState → Event → ServerState × List Out` where `Out` records
the messages the server sends.

Modelling conventions:
* `ClientId` is `Nat` (the JS ids are opaque strings, unique per connection).
* The opaque state payload is `Int`; the relay only ever stores and forwards
  it, except for one JS truthiness test (`if (room.state)`), where `0`
  models a falsy payload.
* JS `Map`s are association lists; `Map.set` on `clients` preserves
  insertion order (existing key keeps its place, fresh key is appended),
  which is what the host-failover code observes.
* `Math.random()`-driven code generation is modelled by passing the stream
  of random draws (`List Nat`, one list of five draws per `makeCode` call)
  as an oracle in the `CREATE_ROOM` event; the unbounded JS resampling loop
  `while (rooms.has(code))` becomes a search through that candidate stream
  (`allocCode`), a no-op if every supplied candidate collides.
* `Date.now()` is a `Nat` carried by each event.
-/

abbrev ClientId := Nat

/-- Opaque application state payload (`msg.state`); the relay never inspects
it beyond one JS truthiness test, so an `Int` (with `0` falsy) suffices. -/
abbrev StateVal := Int

/-- Per-client chat rate-limit record: `chatRL` maps a client id to
`{ windowStartMs, count }` (src/server.js line 71). -/
structure RL where
  windowStartMs : Nat
  count : Nat
deriving DecidableEq, Repr

/-- The four exclusive player slots of a room
(`seats: { p1, p2, p3, p4 }`, src/server.js line 118). -/
structure Seats where
  p1 : Option ClientId
  p2 : Option ClientId
  p3 : Option ClientId
  p4 : Option ClientId
deriving DecidableEq, Repr

/-- Dynamic field read `room.seats[k]` for a seat-name string. -/
def Seats.get (s : Seats) (k : String) : Option ClientId :=
  if k = "p1" then s.p1
  else if k = "p2" then s.p2
  else if k = "p3" then s.p3
  else if k = "p4" then s.p4
  else none

/-- Dynamic field write `room.seats[k] = v` for a seat-name string. -/
def Seats.set (s : Seats) (k : String) (v : Option ClientId) : Seats :=
  if k = "p1" then { s with p1 := v }
  else if k = "p2" then { s with p2 := v }
  else if k = "p3" then { s with p3 := v }
  else if k = "p4" then { s with p4 := v }
  else s

/-- Association-list lookup, modelling `Map.get` / `Map.has`. -/
def lookupKey {α β : Type} [DecidableEq α] : List (α × β) → α → Option β
  | [], _ => none
  | (k, v) :: t, a => if k = a then some v else lookupKey t a

/-- Association-list update, modelling `Map.set`: an existing key keeps its
position, a fresh key is appended (JS `Map` insertion-order semantics). -/
def setKey {α β : Type} [DecidableEq α] : List (α × β) → α → β → List (α × β)
  | [], a, b => [(a, b)]
  | (k, v) :: t, a, b => if k = a then (a, b) :: t else (k, v) :: setKey t a b

/-- Association-list removal, modelling `Map.delete` (removes every entry
with the key; a JS `Map` never holds duplicate keys, so this coincides
with deleting the single entry). -/
def eraseKey {α β : Type} [DecidableEq α] : List (α × β) → α → List (α × β)
  | [], _ => []
  | (k, v) :: t, a => if k = a then eraseKey t a else (k, v) :: eraseKey t a

/-- A room (src/server.js lines 12-19 and 113-120). `clients` is the
insertion-ordered list of member ids (the `Map` keys; the sockets
themselves carry no further information in this model). -/
structure Room where
  hostId : ClientId
  clients : List ClientId
  state : Option StateVal
  version : Int
  seats : Seats
  clientSeat : List (ClientId × String)
deriving DecidableEq, Repr

/-- Whole-server state: the room registry `rooms` (src/server.js line 20),
the per-connection binding `ws._room` (`binds`; a missing entry is an
unbound or closed connection) and the global chat rate-limit table
`chatRL` (line 71). -/
structure ServerState where
  rooms : List (String × Room)
  binds : List (ClientId × String)
  chatRL : List (ClientId × RL)
deriving DecidableEq, Repr

/-- JS `toUpperCase` (ASCII, per character; equals `String.toUpper`, stated
over the character list so that proofs can evaluate it). -/
def jsToUpper (s : String) : String := String.mk (s.toList.map Char.toUpper)

/-- JS `toLowerCase` (ASCII, per character; equals `String.toLower`, stated
over the character list so that proofs can evaluate it). -/
def jsToLower (s : String) : String := String.mk (s.toList.map Char.toLower)

/-- JS `x || d` for an optional string field: absent or empty means `d`. -/
def jsOrStr (o : Option String) (d : String) : String :=
  match o with
  | none => d
  | some s => if s = "" then d else s

/-- JS control characters stripped by `cleanText`
(the regex `[\u0000-\u001F\u007F]`, src/server.js line 64). -/
def isCtl (c : Char) : Bool :=
  c.toNat ≤ 0x1F || c.toNat = 0x7F

/-- The JS regex class `\s` (whitespace characters). -/
def isJsWs (c : Char) : Bool :=
  c = ' ' || c = '\t' || c = '\n' || c.toNat = 0x0B || c.toNat = 0x0C || c = '\r'
  || c.toNat = 0xA0 || c.toNat = 0x1680 || (0x2000 ≤ c.toNat && c.toNat ≤ 0x200A)
  || c.toNat = 0x2028 || c.toNat = 0x2029 || c.toNat = 0x202F || c.toNat = 0x205F
  || c.toNat = 0x3000 || c.toNat = 0xFEFF

/-- Maximal runs of non-whitespace characters, left to right; composing
`replace(/\s+/g, " ").trim()` equals joining these words with single
spaces. -/
def wordsAux (cur : List Char) : List Char → List (List Char)
  | [] => if cur.isEmpty then [] else [cur.reverse]
  | c :: t =>
    if isJsWs c then
      if cur.isEmpty then wordsAux [] t else cur.reverse :: wordsAux [] t
    else wordsAux (c :: cur) t

/-- JS `String.prototype.trim` (strips `\s` from both ends). -/
def jsTrim (s : String) : String :=
  String.mk (((s.toList.dropWhile isJsWs).reverse.dropWhile isJsWs).reverse)

/-- cleanText (src/server.js lines 62-68): coerce with `String(s || "")`,
strip control characters, collapse whitespace runs to single spaces and
trim, then truncate to 220 characters. -/
def cleanText (o : Option String) : String :=
  let s := jsOrStr o ""
  let stripped := s.toList.filter (fun c => !(isCtl c))
  let collapsed := String.mk (List.intercalate [' '] (wordsAux [] stripped))
  if collapsed.length > 220 then String.mk (collapsed.toList.take 220) else collapsed

/-- The code alphabet of `makeCode` (src/server.js line 23). -/
def codeChars : String := "ABCDEFGHJKMNPQRSTUVWXYZ23456789"

/-- makeCode (src/server.js lines 22-27): five characters, each indexed by
`Math.floor(Math.random() * chars.length)`; the five random draws are the
oracle `picks`, reduced mod the alphabet size (the JS draw is always in
range). -/
def makeCode (picks : List Nat) : String :=
  String.mk ((List.range 5).map
    (fun i => codeChars.toList.getD ((picks.getD i 0) % codeChars.length) 'A'))

/-- The resampling loop of CREATE_ROOM (src/server.js lines 110-111):
`let code = makeCode(); while (rooms.has(code)) code = makeCode();`
modelled as the first candidate from the oracle stream that is not a live
room code. -/
def allocCode (pickss : List (List Nat)) (rooms : List (String × Room)) : Option String :=
  (pickss.map makeCode).find? (fun c => (lookupKey rooms c).isNone)

/-- Messages the server sends (src/server.js, the `safeSend`/`broadcast`
payload objects). -/
inductive ServerMsg where
  | hello (clientId : ClientId)
  | roomCreated (roomCode : String) (hostId : ClientId) (clientId : ClientId)
  | roomJoined (roomCode : String) (hostId : ClientId) (clientId : ClientId)
  | errorMsg (message : String)
  | stateMsg (version : Int) (state : StateVal)
  | actionMsg (frm : ClientId) (action : Int)
  | chatSys (ts : Nat) (text : String)
  | chatMsg (ts : Nat) (frm : ClientId) (seat : String) (name : String) (text : String)
  | presence (roomCode : String) (hostId : ClientId) (clients : List ClientId) (seats : Seats)
  | seatClaimed (seat : String)
  | seatRejected (seat : String) (reason : String)
  | hostChanged (hostId : ClientId)
deriving DecidableEq, Repr

/-- An observable output of one handler run: a direct `safeSend` to one
client, or a `broadcast` to a room's member list (tagged with the room
code for bookkeeping; the wire message is `m`). -/
inductive Out where
  | send (dst : ClientId) (m : ServerMsg)
  | bcast (roomCode : String) (dst : List ClientId) (m : ServerMsg)
deriving DecidableEq, Repr

/-- systemChat (src/server.js lines 40-49): trim the server-controlled text
and broadcast it as a system chat message unless empty. -/
def systemChat (now : Nat) (roomCode : String) (room : Room) (text : String) : List Out :=
  let t := jsTrim text
  if t = "" then [] else [Out.bcast roomCode room.clients (.chatSys now t)]

/-- emitPresence (src/server.js lines 51-59). -/
def emitPresence (roomCode : String) (room : Room) : List Out :=
  [Out.bcast roomCode room.clients (.presence roomCode room.hostId room.clients room.seats)]

/-- allowChat (src/server.js lines 72-85): 6 messages per 8000 ms window
measured from the window's first message; returns whether the message is
allowed together with the updated rate-limit table. -/
def allowChat (rl : List (ClientId × RL)) (cid : ClientId) (now : Nat) :
    Bool × List (ClientId × RL) :=
  match lookupKey rl cid with
  | none => (true, setKey rl cid ⟨now, 1⟩)
  | some cur =>
    if now - cur.windowStartMs > 8000 then (true, setKey rl cid ⟨now, 1⟩)
    else if cur.count ≥ 6 then (false, rl)
    else (true, setKey rl cid ⟨cur.windowStartMs, cur.count + 1⟩)

/-- getRoomFromWs (src/server.js lines 87-93): resolve the connection's
bound room; `ws._room` falsy or a dead code yields nothing. -/
def getRoomFromWs (σ : ServerState) (cid : ClientId) : Option (String × Room) :=
  match lookupKey σ.binds cid with
  | none => none
  | some rc =>
    if rc = "" then none
    else
      match lookupKey σ.rooms rc with
      | none => none
      | some room => some (rc, room)

/-- Truthiness of `room.state` for the join-time snapshot
(`if (room.state)`, src/server.js line 144). -/
def stateTruthy (s : Option StateVal) : Bool :=
  match s with
  | none => false
  | some v => v != 0

/-- CREATE_ROOM handler (src/server.js lines 109-130).  The oracle `pickss`
supplies the random draws of the successive `makeCode` calls; if every
candidate collides the model does nothing (the JS loop would keep
resampling). -/
def createRoomH (σ : ServerState) (cid : ClientId) (now : Nat)
    (pickss : List (List Nat)) : ServerState × List Out :=
  match allocCode pickss σ.rooms with
  | none => (σ, [])
  | some roomCode =>
    let room : Room :=
      { hostId := cid, clients := [cid], state := none, version := 0,
        seats := ⟨none, none, none, none⟩, clientSeat := [] }
    ({ σ with rooms := setKey σ.rooms roomCode room,
              binds := setKey σ.binds cid roomCode },
     [Out.send cid (.roomCreated roomCode cid cid)]
       ++ systemChat now roomCode room "Room created. Host connected."
       ++ emitPresence roomCode room)

/-- Map.set on the member list: existing member keeps its position, a new
member is appended (insertion order). -/
def addClient (l : List ClientId) (c : ClientId) : List ClientId :=
  if c ∈ l then l else l ++ [c]

/-- JOIN_ROOM handler (src/server.js lines 135-149). -/
def joinRoomH (σ : ServerState) (cid : ClientId) (now : Nat)
    (mrc : Option String) : ServerState × List Out :=
  let roomCode := jsToUpper (jsOrStr mrc "")
  match lookupKey σ.rooms roomCode with
  | none => (σ, [Out.send cid (.errorMsg "Room not found")])
  | some room =>
    let room1 := { room with clients := addClient room.clients cid }
    let snapshot :=
      if stateTruthy room1.state then
        [Out.send cid (.stateMsg room1.version (room1.state.getD 0))]
      else []
    ({ σ with rooms := setKey σ.rooms roomCode room1,
              binds := setKey σ.binds cid roomCode },
     [Out.send cid (.roomJoined roomCode room1.hostId cid)] ++ snapshot
       ++ systemChat now roomCode room1 "A player joined the room."
       ++ emitPresence roomCode room1)

/-- PUBLISH_STATE handler (src/server.js lines 160-170): silently dropped
unless the sender is the host (`clientId !== room.hostId`), the version is
a number (`typeof msg.version !== "number"`, modelled by `Option`) and it
strictly exceeds the stored version; on acceptance replace state/version
and broadcast the new state. -/
def publishStateH (σ : ServerState) (roomCode : String) (room : Room)
    (cid : ClientId) (version : Option Int) (st : StateVal) : ServerState × List Out :=
  if cid ≠ room.hostId then (σ, [])
  else if version = none then (σ, [])
  else if version.getD 0 ≤ room.version then (σ, [])
  else
    let room1 := { room with state := some st, version := version.getD 0 }
    ({ σ with rooms := setKey σ.rooms roomCode room1 },
     [Out.bcast roomCode room1.clients (.stateMsg room1.version st)])

/-- ACTION handler (src/server.js lines 175-179): forward to the host's
socket when it is still in the member map. -/
def actionH (σ : ServerState) (roomCode : String) (room : Room)
    (cid : ClientId) (act : Int) : ServerState × List Out :=
  if room.clients.contains room.hostId then
    (σ, [Out.send room.hostId (.actionMsg cid act)])
  else (σ, [])

/-- The sender-name sanitization of the CHAT handler (src/server.js lines
196-197): cleanText, then truncate to 16 characters. -/
def chatName (mname : Option String) : String :=
  let name0 := cleanText mname
  if name0.length > 16 then String.mk (name0.toList.take 16) else name0

/-- CHAT handler (src/server.js lines 184-208): rate limit, sanitize, drop
empty text, derive the seat from `clientSeat` with fallback to the
client-supplied field, then broadcast. -/
def chatH (σ : ServerState) (roomCode : String) (room : Room) (cid : ClientId)
    (now : Nat) (mtext mname mseat : Option String) : ServerState × List Out :=
  let res := allowChat σ.chatRL cid now
  let σ1 := { σ with chatRL := res.2 }
  if !res.1 then (σ1, [Out.send cid (.errorMsg "Chat rate limit. Slow down.")])
  else
    let text := cleanText mtext
    if text = "" then (σ1, [])
    else
      let seat :=
        match lookupKey room.clientSeat cid with
        | some s => if s = "" then jsToLower (jsOrStr mseat "spec") else s
        | none => jsToLower (jsOrStr mseat "spec")
      (σ1, [Out.bcast roomCode room.clients (.chatMsg now cid seat (chatName mname) text)])

/-- The seat-release step, identical in CLAIM_SEAT (src/server.js lines
221-224) and in the close handler (lines 259-262): clear the player slot
the client holds, if its reverse entry names a player slot it really
occupies. -/
def releaseSeat (room : Room) (cid : ClientId) : Room :=
  match lookupKey room.clientSeat cid with
  | some prev =>
    if prev ∈ ["p1", "p2", "p3", "p4"] ∧ room.seats.get prev = some cid then
      { room with seats := room.seats.set prev none }
    else room
  | none => room

/-- CLAIM_SEAT handler (src/server.js lines 213-249): validate the seat
string, release any player slot the client holds, then either record
spectating, reject an occupied slot, or assign the slot.  In every branch
after validation the mutated room object is the registry's room. -/
def claimSeatH (σ : ServerState) (roomCode : String) (room : Room)
    (cid : ClientId) (now : Nat) (mseat : Option String) : ServerState × List Out :=
  let want := jsToLower (jsOrStr mseat "")
  if want ∉ ["p1", "p2", "p3", "p4", "spec"] then
    (σ, [Out.send cid (.errorMsg "Invalid seat")])
  else
    let room1 := releaseSeat room cid
    if want = "spec" then
      let room2 := { room1 with clientSeat := setKey room1.clientSeat cid "spec" }
      ({ σ with rooms := setKey σ.rooms roomCode room2 },
       [Out.send cid (.seatClaimed "spec")]
         ++ systemChat now roomCode room2 "A player is now spectating."
         ++ emitPresence roomCode room2)
    else
      let occupied :=
        match room1.seats.get want with
        | some owner => owner != cid
        | none => false
      if occupied then
        ({ σ with rooms := setKey σ.rooms roomCode room1 },
         [Out.send cid (.seatRejected want "Seat already taken")]
           ++ emitPresence roomCode room1)
      else
        let room2 := { room1 with seats := room1.seats.set want (some cid),
                                  clientSeat := setKey room1.clientSeat cid want }
        ({ σ with rooms := setKey σ.rooms roomCode room2 },
         [Out.send cid (.seatClaimed want)]
           ++ systemChat now roomCode room2 ("Seat " ++ jsToUpper want ++ " claimed.")
           ++ emitPresence roomCode room2)

/-- Connection-close handler (src/server.js lines 252-283): remove the
member, release its seat, drop its reverse seat entry, delete the room if
now empty, otherwise announce the departure, run host failover (promote
the first remaining member in join order) and emit presence. -/
def closeH (σ : ServerState) (cid : ClientId) (now : Nat) : ServerState × List Out :=
  match getRoomFromWs σ cid with
  | none => ({ σ with binds := eraseKey σ.binds cid }, [])
  | some (roomCode, room) =>
    let room1 := { room with clients := room.clients.erase cid }
    let room2 := releaseSeat room1 cid
    let room3 := { room2 with clientSeat := eraseKey room2.clientSeat cid }
    if room3.clients.isEmpty then
      ({ σ with rooms := eraseKey σ.rooms roomCode, binds := eraseKey σ.binds cid }, [])
    else
      let outs1 := systemChat now roomCode room3 "A player left the room."
      let hostGone := !room3.clients.contains room3.hostId
      let room4 := if hostGone then { room3 with hostId := room3.clients.headI } else room3
      let outs2 :=
        if hostGone then
          [Out.bcast roomCode room4.clients (.hostChanged room4.hostId)]
            ++ systemChat now roomCode room4 "Host changed."
        else []
      ({ σ with rooms := setKey σ.rooms roomCode room4, binds := eraseKey σ.binds cid },
       outs1 ++ outs2 ++ emitPresence roomCode room4)

/-- Parsed client-to-server messages (the `msg.type` dispatch of
src/server.js lines 102-250).  Optional fields model absent JSON keys;
`createRoom` carries the random-draw oracle for code generation. -/
inductive ClientMsg where
  | createRoom (pickss : List (List Nat))
  | joinRoom (roomCode : Option String)
  | publishState (version : Option Int) (state : StateVal)
  | action (act : Int)
  | chat (text name seat : Option String)
  | claimSeat (seat : Option String)
deriving DecidableEq, Repr

/-- One external event: a parsed message arriving on a connection at wall
clock `now`, or a connection closing. -/
inductive Event where
  | recv (cid : ClientId) (now : Nat) (m : ClientMsg)
  | close (cid : ClientId) (now : Nat)
deriving DecidableEq, Repr

/-- The message dispatcher (src/server.js lines 102-250): CREATE_ROOM and
JOIN_ROOM work unbound; every other type first resolves the bound room and
is dropped when there is none. -/
def handleMsg (σ : ServerState) (cid : ClientId) (now : Nat) (m : ClientMsg) :
    ServerState × List Out :=
  match m with
  | .createRoom pickss => createRoomH σ cid now pickss
  | .joinRoom mrc => joinRoomH σ cid now mrc
  | .publishState v st =>
    match getRoomFromWs σ cid with
    | none => (σ, [])
    | some (rc, room) => publishStateH σ rc room cid v st
  | .action a =>
    match getRoomFromWs σ cid with
    | none => (σ, [])
    | some (rc, room) => actionH σ rc room cid a
  | .chat t n s =>
    match getRoomFromWs σ cid with
    | none => (σ, [])
    | some (rc, room) => chatH σ rc room cid now t n s
  | .claimSeat s =>
    match getRoomFromWs σ cid with
    | none => (σ, [])
    | some (rc, room) => claimSeatH σ rc room cid now s

/-- One step of the whole server. -/
def stepEv (σ : ServerState) (e : Event) : ServerState × List Out :=
  match e with
  | .recv cid now m => handleMsg σ cid now m
  | .close cid now => closeH σ cid now

/-- Run a sequence of events, accumulating all outputs in order. -/
def run : ServerState → List Event → ServerState × List Out
  | σ, [] => (σ, [])
  | σ, e :: es =>
    let p := stepEv σ e
    let q := run p.1 es
    (q.1, p.2 ++ q.2)

/-- All states visited by a run, starting state included. -/
def runStates : ServerState → List Event → List ServerState
  | σ, [] => [σ]
  | σ, e :: es => σ :: runStates (stepEv σ e).1 es

/-- The version of the room registered under `rc`, if any. -/
def roomVersion (σ : ServerState) (rc : String) : Option Int :=
  (lookupKey σ.rooms rc).map Room.version

/-- The versions carried by STATE broadcasts to room `rc`, in emission
order (direct per-client STATE snapshots at join are sends, not
broadcasts, and are excluded). -/
def stateBcastVersions (rc : String) (outs : List Out) : List Int :=
  outs.filterMap (fun o =>
    match o with
    | .bcast rc' _ (.stateMsg v _) => if rc' = rc then some v else none
    | _ => none)

/-- Room `rc` exists at every state boundary of the run (so it is never
destroyed and recreated mid-trace). -/
def aliveThroughout (rc : String) : ServerState → List Event → Bool
  | σ, [] => (lookupKey σ.rooms rc).isSome
  | σ, e :: es => (lookupKey σ.rooms rc).isSome && aliveThroughout rc (stepEv σ e).1 es

/-- Forward seat consistency of one room: every occupied player slot's
occupant has a matching reverse entry in `clientSeat`. -/
def seatConsistent (room : Room) : Bool :=
  (match room.seats.p1 with
   | none => true
   | some c => lookupKey room.clientSeat c == some "p1") &&
  (match room.seats.p2 with
   | none => true
   | some c => lookupKey room.clientSeat c == some "p2") &&
  (match room.seats.p3 with
   | none => true
   | some c => lookupKey room.clientSeat c == some "p3") &&
  (match room.seats.p4 with
   | none => true
   | some c => lookupKey room.clientSeat c == some "p4")

/-- Forward seat consistency of every registered room. -/
def allSeatsConsistent (σ : ServerState) : Bool :=
  σ.rooms.all (fun p => seatConsistent p.2)

/-- The four player-slot names. -/
def playerSlots : List String := ["p1", "p2", "p3", "p4"]

/-- Forward seat consistency of one room, as a proposition: every occupied
player slot's occupant has the matching reverse entry in `clientSeat`. -/
def SeatsConsistentP (room : Room) : Prop :=
  ∀ s c, s ∈ playerSlots → room.seats.get s = some c →
    lookupKey room.clientSeat c = some s

/-- Recognizer for HOST_CHANGED broadcasts among outputs. -/
def isHostChangedOut : Out → Bool
  | .bcast _ _ (.hostChanged _) => true
  | _ => false

/-- Recognizer for STATE broadcasts among outputs. -/
def isStateBcastOut : Out → Bool
  | .bcast _ _ (.stateMsg _ _) => true
  | _ => false

/-- The results of successive `allowChat` calls of one client at the given
times, threading the rate-limit table. -/
def allowChatSeq (rl : List (ClientId × RL)) (cid : ClientId) : List Nat → List Bool
  | [] => []
  | t :: ts =>
    let p := allowChat rl cid t
    p.1 :: allowChatSeq p.2 cid ts

/-- The rate-limit table after successive `allowChat` calls of one client. -/
def allowChatSeqRL (rl : List (ClientId × RL)) (cid : ClientId) : List Nat → List (ClientId × RL)
  | [] => rl
  | t :: ts => allowChatSeqRL (allowChat rl cid t).2 cid ts

/-! ### Association-list and seat-table lemmas -/

theorem lookupKey_setKey {α β : Type} [DecidableEq α] (l : List (α × β)) (k a : α) (v : β) :
    lookupKey (setKey l k v) a = if k = a then some v else lookupKey l a := by
  induction l with
  | nil => simp [setKey, lookupKey]
  | cons p t ih =>
    obtain ⟨k', v'⟩ := p
    by_cases hk : k' = k
    · by_cases ha : k = a
      · simp [setKey, lookupKey, hk, ha]
      · have h2 : ¬ k' = a := by rw [hk]; exact ha
        simp [setKey, lookupKey, hk, ha, h2]
    · by_cases ha : k' = a
      · have h2 : ¬ k = a := by rw [← ha]; exact fun h => hk h.symm
        have h3 : ¬ a = k := fun h => h2 h.symm
        simp [setKey, lookupKey, hk, ha, h2, h3]
      · simp [setKey, lookupKey, hk, ha, ih]

theorem lookupKey_eraseKey {α β : Type} [DecidableEq α] (l : List (α × β)) (k a : α) :
    lookupKey (eraseKey l k) a = if k = a then none else lookupKey l a := by
  induction l with
  | nil => simp [eraseKey, lookupKey]
  | cons p t ih =>
    obtain ⟨k', v'⟩ := p
    by_cases hk : k' = k
    · by_cases ha : k = a
      · have ih' : lookupKey (eraseKey t a) a = none := by
          rw [ha] at ih; simpa using ih
        simp [eraseKey, lookupKey, hk, ha, ih']
      · have h2 : ¬ k' = a := by rw [hk]; exact ha
        simp [eraseKey, lookupKey, hk, ha, h2, ih]
    · by_cases ha : k' = a
      · have h2 : ¬ k = a := by rw [← ha]; exact fun h => hk h.symm
        have h3 : ¬ a = k := fun h => h2 h.symm
        simp [eraseKey, lookupKey, hk, ha, h2, h3]
      · simp [eraseKey, lookupKey, hk, ha, ih]

theorem lookupKey_mem {α β : Type} [DecidableEq α] {l : List (α × β)} {a : α} {b : β}
    (h : lookupKey l a = some b) : (a, b) ∈ l := by
  induction l with
  | nil => simp [lookupKey] at h
  | cons p t ih =>
    obtain ⟨k', v'⟩ := p
    by_cases hk : k' = a
    · subst hk
      simp [lookupKey] at h
      simp [h]
    · simp [lookupKey, hk] at h
      exact List.mem_cons_of_mem _ (ih h)

theorem mem_setKey {α β : Type} [DecidableEq α] {l : List (α × β)} {k : α} {v : β}
    {p : α × β} (h : p ∈ setKey l k v) : p = (k, v) ∨ p ∈ l := by
  induction l with
  | nil => simpa [setKey] using h
  | cons q t ih =>
    obtain ⟨k', v'⟩ := q
    by_cases hk : k' = k
    · subst hk
      simp [setKey] at h
      rcases h with h | h
      · exact Or.inl h
      · exact Or.inr (List.mem_cons_of_mem _ h)
    · simp [setKey, hk] at h
      rcases h with h | h
      · exact Or.inr (by simp [h])
      · rcases ih h with h' | h'
        · exact Or.inl h'
        · exact Or.inr (List.mem_cons_of_mem _ h')

theorem mem_eraseKey {α β : Type} [DecidableEq α] {l : List (α × β)} {k : α}
    {p : α × β} (h : p ∈ eraseKey l k) : p ∈ l := by
  induction l with
  | nil => simpa [eraseKey] using h
  | cons q t ih =>
    obtain ⟨k', v'⟩ := q
    by_cases hk : k' = k
    · subst hk
      simp [eraseKey] at h
      exact List.mem_cons_of_mem _ (ih h)
    · simp [eraseKey, hk] at h
      rcases h with h | h
      · simp [h]
      · exact List.mem_cons_of_mem _ (ih h)

theorem Seats.get_set_same (st : Seats) (k : String) (v : Option ClientId)
    (hk : k ∈ playerSlots) : (st.set k v).get k = v := by
  simp only [playerSlots, List.mem_cons, List.not_mem_nil, or_false] at hk
  rcases hk with h | h | h | h <;> subst h <;> simp [Seats.set, Seats.get]

theorem Seats.get_set_other (st : Seats) (k : String) (v : Option ClientId)
    (a : String) (ha : k ≠ a) : (st.set k v).get a = st.get a := by
  simp only [Seats.set, Seats.get]
  split_ifs <;> simp_all

theorem Seats.set_invalid (st : Seats) (k : String) (v : Option ClientId)
    (hk : k ∉ playerSlots) : st.set k v = st := by
  simp only [playerSlots, List.mem_cons, List.not_mem_nil, or_false, not_or] at hk
  obtain ⟨h1, h2, h3, h4⟩ := hk
  simp [Seats.set, h1, h2, h3, h4]

theorem getRoomFromWs_rooms {σ : ServerState} {cid : ClientId} {rc : String} {room : Room}
    (h : getRoomFromWs σ cid = some (rc, room)) : lookupKey σ.rooms rc = some room := by
  unfold getRoomFromWs at h
  rcases hb : lookupKey σ.binds cid with _ | rc'
  · simp [hb] at h
  · rw [hb] at h
    by_cases he : rc' = ""
    · simp [he] at h
    · rcases hr : lookupKey σ.rooms rc' with _ | room'
      · simp [he, hr] at h
      · simp [he, hr] at h
        obtain ⟨h1, h2⟩ := h
        subst h1; subst h2
        exact hr

/-- releaseSeat only touches the seats table. -/
theorem releaseSeat_fields (room : Room) (cid : ClientId) :
    (releaseSeat room cid).hostId = room.hostId
  ∧ (releaseSeat room cid).clients = room.clients
  ∧ (releaseSeat room cid).state = room.state
  ∧ (releaseSeat room cid).version = room.version
  ∧ (releaseSeat room cid).clientSeat = room.clientSeat := by
  unfold releaseSeat
  rcases lookupKey room.clientSeat cid with _ | prev
  · exact ⟨rfl, rfl, rfl, rfl, rfl⟩
  · dsimp only
    split_ifs <;> exact ⟨rfl, rfl, rfl, rfl, rfl⟩

theorem releaseSeat_clients (room : Room) (cid : ClientId) :
    (releaseSeat room cid).clients = room.clients :=
  (releaseSeat_fields room cid).2.1

theorem releaseSeat_hostId (room : Room) (cid : ClientId) :
    (releaseSeat room cid).hostId = room.hostId :=
  (releaseSeat_fields room cid).1

theorem releaseSeat_clientSeat (room : Room) (cid : ClientId) :
    (releaseSeat room cid).clientSeat = room.clientSeat :=
  (releaseSeat_fields room cid).2.2.2.2

/-! ### Dispatch helpers -/

theorem handleMsg_publish_bound {σ : ServerState} {cid : ClientId} {rc : String} {room : Room}
    (hb : getRoomFromWs σ cid = some (rc, room)) (now : Nat) (v : Option Int) (st : StateVal) :
    handleMsg σ cid now (.publishState v st) = publishStateH σ rc room cid v st := by
  simp [handleMsg, hb]

theorem handleMsg_chat_bound {σ : ServerState} {cid : ClientId} {rc : String} {room : Room}
    (hb : getRoomFromWs σ cid = some (rc, room)) (now : Nat) (t n s : Option String) :
    handleMsg σ cid now (.chat t n s) = chatH σ rc room cid now t n s := by
  simp [handleMsg, hb]

theorem handleMsg_claimSeat_bound {σ : ServerState} {cid : ClientId} {rc : String} {room : Room}
    (hb : getRoomFromWs σ cid = some (rc, room)) (now : Nat) (s : Option String) :
    handleMsg σ cid now (.claimSeat s) = claimSeatH σ rc room cid now s := by
  simp [handleMsg, hb]

/-! ### C9 -/

/-- C9 counterexample: the code alphabet of `makeCode` has 31 symbols, not
32 as the claim states (36 symbols minus the five excluded ambiguous ones
is 31). -/
theorem code_alphabet_has_31_symbols_cex :
    codeChars.length = 31 ∧ ¬ codeChars.length = 32 := by
  constructor <;> decide

/-- C9 (amended: the alphabet has 31 symbols, everything else as claimed):
every generated code is exactly 5 characters, each drawn from the
31-symbol alphabet that excludes `I`, `O`, `0`, `1` and `L`, and a code
allocated by CREATE_ROOM's resampling loop is not a live room code and is
one of the generated candidates. -/
theorem room_code_shape_and_unique (picks : List Nat) (pickss : List (List Nat))
    (rooms : List (String × Room)) (code : String)
    (h : allocCode pickss rooms = some code) :
    (makeCode picks).length = 5
  ∧ (∀ c ∈ (makeCode picks).toList, c ∈ codeChars.toList)
  ∧ ('I' ∉ codeChars.toList ∧ 'O' ∉ codeChars.toList ∧ '0' ∉ codeChars.toList
      ∧ '1' ∉ codeChars.toList ∧ 'L' ∉ codeChars.toList)
  ∧ codeChars.length = 31
  ∧ lookupKey rooms code = none
  ∧ ∃ p ∈ pickss, code = makeCode p := by
  refine ⟨?_, ?_, by decide, by decide, ?_, ?_⟩
  · show ((List.range 5).map
      (fun i => codeChars.toList.getD ((picks.getD i 0) % codeChars.length) 'A')).length = 5
    simp
  · intro c hc
    have hc' : c ∈ (List.range 5).map
        (fun i => codeChars.toList.getD ((picks.getD i 0) % codeChars.length) 'A') := hc
    clear hc
    rename' hc' => hc
    simp only [List.mem_map, List.mem_range] at hc
    obtain ⟨i, _, hi⟩ := hc
    have hlt : (picks.getD i 0) % codeChars.length < codeChars.toList.length := by
      have h31 : codeChars.toList.length = 31 := by decide
      have h31' : codeChars.length = 31 := by decide
      rw [h31, h31']
      exact Nat.mod_lt _ (by norm_num)
    rw [List.getD_eq_getElem _ _ hlt] at hi
    rw [← hi]
    exact List.getElem_mem _
  · have := List.find?_some h
    simpa [Option.isNone_iff_eq_none] using this
  · have hmem := List.mem_of_find?_eq_some h
    simp only [List.mem_map] at hmem
    obtain ⟨p, hp, hpc⟩ := hmem
    exact ⟨p, hp, hpc.symm⟩

/-- Witness for C9's theorem at a concrete input. -/
theorem room_code_shape_and_unique_witness :
    allocCode [[0, 1, 2, 3, 4]] [] = some "ABCDE"
  ∧ ((makeCode [0, 1, 2, 3, 4]).length = 5
      ∧ (∀ c ∈ (makeCode [0, 1, 2, 3, 4]).toList, c ∈ codeChars.toList)
      ∧ ('I' ∉ codeChars.toList ∧ 'O' ∉ codeChars.toList ∧ '0' ∉ codeChars.toList
          ∧ '1' ∉ codeChars.toList ∧ 'L' ∉ codeChars.toList)
      ∧ codeChars.length = 31
      ∧ lookupKey ([] : List (String × Room)) "ABCDE" = none
      ∧ ∃ p ∈ [[0, 1, 2, 3, 4]], "ABCDE" = makeCode p) :=
  ⟨by decide, room_code_shape_and_unique [0, 1, 2, 3, 4] [[0, 1, 2, 3, 4]] [] "ABCDE" (by decide)⟩

/-! ### C1 -/

/-- C1: a PUBLISH_STATE from a bound connection is accepted exactly when the
sender is the room's host and the supplied version is a number strictly
greater than the stored version; on acceptance the room's state and version
become the supplied values and a single STATE broadcast carrying them goes
to the room's whole member list (which contains the host whenever the host
is a member, as it always is); in every other case the registry, the
bindings and the rate-limit table are all unchanged and no message at all
is sent. -/
theorem publish_state_accept_iff (σ : ServerState) (cid : ClientId) (now : Nat)
    (ver : Option Int) (st : StateVal) (rc : String) (room : Room)
    (hb : getRoomFromWs σ cid = some (rc, room)) :
    (∀ v, cid = room.hostId → ver = some v → room.version < v →
       stepEv σ (.recv cid now (.publishState ver st))
         = ({ σ with rooms := setKey σ.rooms rc { room with state := some st, version := v } },
            [Out.bcast rc room.clients (.stateMsg v st)]))
  ∧ ((cid ≠ room.hostId ∨ ver = none ∨ ∃ v, ver = some v ∧ v ≤ room.version) →
       stepEv σ (.recv cid now (.publishState ver st)) = (σ, [])) := by
  constructor
  · intro v hhost hver hlt
    subst hver
    subst hhost
    rw [show stepEv σ (.recv room.hostId now (.publishState (some v) st))
          = publishStateH σ rc room room.hostId (some v) st
        from handleMsg_publish_bound hb now (some v) st]
    unfold publishStateH
    rw [if_neg (by simp), if_neg (by simp), if_neg (by simpa using not_le.mpr hlt)]
    rfl
  · intro hrej
    rw [show stepEv σ (.recv cid now (.publishState ver st))
          = publishStateH σ rc room cid ver st
        from handleMsg_publish_bound hb now ver st]
    unfold publishStateH
    rcases hrej with hhost | hnone | ⟨v, hver, hle⟩
    · rw [if_pos hhost]
    · subst hnone
      by_cases h : cid ≠ room.hostId
      · rw [if_pos h]
      · rw [if_neg h, if_pos rfl]
    · subst hver
      by_cases h : cid ≠ room.hostId
      · rw [if_pos h]
      · rw [if_neg h, if_neg (by simp), if_pos (by simpa using hle)]

/-- Witness for C1's theorem: a host publish at version 1 over version 0 is
accepted, replaces the state and is broadcast to both members. -/
theorem publish_state_accept_iff_witness :
    getRoomFromWs
        ⟨[("AAAAA", ⟨10, [10, 20], none, 0, ⟨none, none, none, none⟩, []⟩)],
         [(10, "AAAAA"), (20, "AAAAA")], []⟩ 10
      = some ("AAAAA", ⟨10, [10, 20], none, 0, ⟨none, none, none, none⟩, []⟩)
  ∧ stepEv ⟨[("AAAAA", ⟨10, [10, 20], none, 0, ⟨none, none, none, none⟩, []⟩)],
            [(10, "AAAAA"), (20, "AAAAA")], []⟩
        (.recv 10 5 (.publishState (some 1) 7))
      = ({ (⟨[("AAAAA", ⟨10, [10, 20], none, 0, ⟨none, none, none, none⟩, []⟩)],
            [(10, "AAAAA"), (20, "AAAAA")], []⟩ : ServerState) with
            rooms := setKey [("AAAAA", ⟨10, [10, 20], none, 0, ⟨none, none, none, none⟩, []⟩)]
              "AAAAA"
              { (⟨10, [10, 20], none, 0, ⟨none, none, none, none⟩, []⟩ : Room) with
                 state := some 7, version := 1 } },
         [Out.bcast "AAAAA" [10, 20] (.stateMsg 1 7)]) :=
  ⟨by decide,
   (publish_state_accept_iff
      ⟨[("AAAAA", ⟨10, [10, 20], none, 0, ⟨none, none, none, none⟩, []⟩)],
       [(10, "AAAAA"), (20, "AAAAA")], []⟩ 10 5 (some 1) 7 "AAAAA"
      ⟨10, [10, 20], none, 0, ⟨none, none, none, none⟩, []⟩ (by decide)).1
     1 rfl rfl (by decide)⟩

/-! ### C8 -/

/-- C8: when the disconnect of a bound client leaves its room with no
members, that room code is gone from the registry in the resulting state of
the very same close event; and a JOIN_ROOM whose (uppercased) code is not
registered leaves the entire server state unchanged — in particular the
requester stays unbound — and produces exactly one "Room not found" error
reply to the requester and nothing else. -/
theorem empty_room_deleted_and_unknown_join (σ : ServerState) (cid cid2 : ClientId)
    (now now2 : Nat) (rc : String) (room : Room) (mrc : Option String)
    (hb : getRoomFromWs σ cid = some (rc, room))
    (hempty : room.clients.erase cid = [])
    (hunknown : lookupKey σ.rooms (jsToUpper (jsOrStr mrc "")) = none) :
    lookupKey (stepEv σ (.close cid now)).1.rooms rc = none
  ∧ stepEv σ (.recv cid2 now2 (.joinRoom mrc)) = (σ, [Out.send cid2 (.errorMsg "Room not found")]) := by
  refine ⟨?_, ?_⟩
  · show lookupKey (closeH σ cid now).1.rooms rc = none
    simp [closeH, hb, releaseSeat_clients, hempty, lookupKey_eraseKey]
  · show joinRoomH σ cid2 now2 mrc = (σ, [Out.send cid2 (.errorMsg "Room not found")])
    simp only [joinRoomH, hunknown]

/-- Witness for C8's theorem: a two-client room where client 20 is the last
member and a join with an unknown code. -/
theorem empty_room_deleted_and_unknown_join_witness :
    getRoomFromWs ⟨[("AAAAA", ⟨20, [20], none, 0, ⟨none, none, none, none⟩, []⟩)],
                   [(20, "AAAAA")], []⟩ 20
      = some ("AAAAA", ⟨20, [20], none, 0, ⟨none, none, none, none⟩, []⟩)
  ∧ ([20] : List ClientId).erase 20 = []
  ∧ lookupKey [("AAAAA", (⟨20, [20], none, 0, ⟨none, none, none, none⟩, []⟩ : Room))]
      (jsToUpper (jsOrStr (some "zzzzz") "")) = none
  ∧ (lookupKey (stepEv ⟨[("AAAAA", ⟨20, [20], none, 0, ⟨none, none, none, none⟩, []⟩)],
                        [(20, "AAAAA")], []⟩ (.close 20 9)).1.rooms "AAAAA" = none
      ∧ stepEv ⟨[("AAAAA", ⟨20, [20], none, 0, ⟨none, none, none, none⟩, []⟩)],
                [(20, "AAAAA")], []⟩ (.recv 30 9 (.joinRoom (some "zzzzz")))
          = (⟨[("AAAAA", ⟨20, [20], none, 0, ⟨none, none, none, none⟩, []⟩)],
              [(20, "AAAAA")], []⟩,
             [Out.send 30 (.errorMsg "Room not found")])) :=
  ⟨by decide, by decide, by decide,
   empty_room_deleted_and_unknown_join
     ⟨[("AAAAA", ⟨20, [20], none, 0, ⟨none, none, none, none⟩, []⟩)], [(20, "AAAAA")], []⟩
     20 30 9 9 "AAAAA" ⟨20, [20], none, 0, ⟨none, none, none, none⟩, []⟩ (some "zzzzz")
     (by decide) (by decide) (by decide)⟩

/-! ### C5 -/

/-- C5 counterexample: CLAIM_SEAT with the literal seat value "spectator"
is NOT recognized — it is answered with the invalid-seat error and mutates
nothing — because the recognized spectator value on the wire is "spec". -/
theorem claim_seat_spectator_rejected_cex :
    stepEv ⟨[("AAAAA", ⟨10, [10, 20], none, 0, ⟨none, none, none, none⟩, []⟩)],
            [(10, "AAAAA"), (20, "AAAAA")], []⟩
        (.recv 20 0 (.claimSeat (some "spectator")))
      = (⟨[("AAAAA", ⟨10, [10, 20], none, 0, ⟨none, none, none, none⟩, []⟩)],
          [(10, "AAAAA"), (20, "AAAAA")], []⟩,
         [Out.send 20 (.errorMsg "Invalid seat")]) := by
  decide

/-- C5 (amended: the five recognized seat values are p1, p2, p3, p4 and
"spec" — the spectator value on the wire is "spec", and any other value,
"spectator" included, is answered with an invalid-seat error reply to the
requester and no mutation at all): an unrecognized seat value leaves the
whole state unchanged and yields exactly the error reply; seat value
"spec" records the client as spectator in `clientSeat`, replies with a
SEAT_CLAIMED confirmation, and broadcasts a system notice and presence,
leaving every other room attribute unchanged. -/
theorem claim_seat_validation (σ : ServerState) (cid : ClientId) (now : Nat)
    (mseat : Option String) (rc : String) (room : Room)
    (hb : getRoomFromWs σ cid = some (rc, room)) :
    (jsToLower (jsOrStr mseat "") ∉ ["p1", "p2", "p3", "p4", "spec"] →
       stepEv σ (.recv cid now (.claimSeat mseat))
         = (σ, [Out.send cid (.errorMsg "Invalid seat")]))
  ∧ (jsToLower (jsOrStr mseat "") = "spec" →
       ∃ room2 : Room,
         stepEv σ (.recv cid now (.claimSeat mseat))
           = ({ σ with rooms := setKey σ.rooms rc room2 },
              [Out.send cid (.seatClaimed "spec"),
               Out.bcast rc room2.clients (.chatSys now "A player is now spectating."),
               Out.bcast rc room2.clients (.presence rc room2.hostId room2.clients room2.seats)])
         ∧ lookupKey room2.clientSeat cid = some "spec"
         ∧ room2.hostId = room.hostId ∧ room2.clients = room.clients
         ∧ room2.state = room.state ∧ room2.version = room.version) := by
  have hstep : stepEv σ (.recv cid now (.claimSeat mseat))
      = claimSeatH σ rc room cid now mseat := handleMsg_claimSeat_bound hb now mseat
  constructor
  · intro hinv
    rw [hstep]
    unfold claimSeatH
    rw [if_pos hinv]
  · intro hspec
    rw [hstep]
    simp only [claimSeatH, hspec]
    rw [if_pos trivial]
    refine ⟨{ releaseSeat room cid with
              clientSeat := setKey (releaseSeat room cid).clientSeat cid "spec" }, ?_, ?_, ?miscFields⟩
    case miscFields =>
      obtain ⟨h1, h2, h3, h4, _⟩ := releaseSeat_fields room cid
      exact ⟨h1, h2, h3, h4⟩
    · simp only [systemChat, emitPresence]
      rw [show jsTrim "A player is now spectating." = "A player is now spectating." from by decide]
      rw [if_neg (by decide)]
      rfl
    · rw [show ({ releaseSeat room cid with
          clientSeat := setKey (releaseSeat room cid).clientSeat cid "spec" } : Room).clientSeat
          = setKey (releaseSeat room cid).clientSeat cid "spec" from rfl]
      rw [lookupKey_setKey, if_pos rfl]

/-- Witness for C5's theorem: client 20 claims "spectator" (rejected) and
"spec" (recorded) in a two-client room. -/
theorem claim_seat_validation_witness :
    getRoomFromWs ⟨[("AAAAA", ⟨10, [10, 20], none, 0, ⟨none, none, none, none⟩, []⟩)],
                   [(10, "AAAAA"), (20, "AAAAA")], []⟩ 20
      = some ("AAAAA", ⟨10, [10, 20], none, 0, ⟨none, none, none, none⟩, []⟩)
  ∧ jsToLower (jsOrStr (some "SPEC") "") = "spec"
  ∧ (∃ room2 : Room,
       stepEv ⟨[("AAAAA", ⟨10, [10, 20], none, 0, ⟨none, none, none, none⟩, []⟩)],
               [(10, "AAAAA"), (20, "AAAAA")], []⟩
           (.recv 20 3 (.claimSeat (some "SPEC")))
         = ({ (⟨[("AAAAA", ⟨10, [10, 20], none, 0, ⟨none, none, none, none⟩, []⟩)],
               [(10, "AAAAA"), (20, "AAAAA")], []⟩ : ServerState) with
              rooms := setKey [("AAAAA", ⟨10, [10, 20], none, 0, ⟨none, none, none, none⟩, []⟩)]
                "AAAAA" room2 },
            [Out.send 20 (.seatClaimed "spec"),
             Out.bcast "AAAAA" room2.clients (.chatSys 3 "A player is now spectating."),
             Out.bcast "AAAAA" room2.clients (.presence "AAAAA" room2.hostId room2.clients room2.seats)])
       ∧ lookupKey room2.clientSeat 20 = some "spec"
       ∧ room2.hostId = 10 ∧ room2.clients = [10, 20]
       ∧ room2.state = none ∧ room2.version = 0) :=
  ⟨by decide, by decide,
   (claim_seat_validation
      ⟨[("AAAAA", ⟨10, [10, 20], none, 0, ⟨none, none, none, none⟩, []⟩)],
       [(10, "AAAAA"), (20, "AAAAA")], []⟩ 20 3 (some "SPEC") "AAAAA"
      ⟨10, [10, 20], none, 0, ⟨none, none, none, none⟩, []⟩ (by decide)).2 (by decide)⟩

/-! ### C7 -/

/-- C7 counterexample: in a room where the sender has no `clientSeat`
entry, two CHAT messages that differ only in the client-supplied seat
field are broadcast with different seat values ("p3" versus the default
"spec"), so the broadcast seat does depend on the client-claimed field. -/
theorem chat_seat_fallback_cex :
    stepEv ⟨[("AAAAA", ⟨10, [10, 20], none, 0, ⟨none, none, none, none⟩, []⟩)],
            [(10, "AAAAA"), (20, "AAAAA")], []⟩
        (.recv 20 5 (.chat (some "hi") none (some "p3")))
      = (⟨[("AAAAA", ⟨10, [10, 20], none, 0, ⟨none, none, none, none⟩, []⟩)],
          [(10, "AAAAA"), (20, "AAAAA")], [(20, ⟨5, 1⟩)]⟩,
         [Out.bcast "AAAAA" [10, 20] (.chatMsg 5 20 "p3" "" "hi")])
  ∧ stepEv ⟨[("AAAAA", ⟨10, [10, 20], none, 0, ⟨none, none, none, none⟩, []⟩)],
            [(10, "AAAAA"), (20, "AAAAA")], []⟩
        (.recv 20 5 (.chat (some "hi") none none))
      = (⟨[("AAAAA", ⟨10, [10, 20], none, 0, ⟨none, none, none, none⟩, []⟩)],
          [(10, "AAAAA"), (20, "AAAAA")], [(20, ⟨5, 1⟩)]⟩,
         [Out.bcast "AAAAA" [10, 20] (.chatMsg 5 20 "spec" "" "hi")]) := by
  constructor <;> decide

/-- C7 (amended: the broadcast seat is the authoritative `clientSeat` value
when the sender has one, but for a sender with no `clientSeat` entry it
falls back to the client-supplied seat field, lowercased, defaulting to
"spec"): characterization of the seat field of an accepted, non-empty CHAT
broadcast. -/
theorem chat_seat_authoritative_or_fallback (σ : ServerState) (cid : ClientId) (now : Nat)
    (mtext mname mseat : Option String) (rc : String) (room : Room)
    (hb : getRoomFromWs σ cid = some (rc, room))
    (hok : (allowChat σ.chatRL cid now).1 = true)
    (htext : ¬ cleanText mtext = "") :
    (∀ s, lookupKey room.clientSeat cid = some s → ¬ s = "" →
       stepEv σ (.recv cid now (.chat mtext mname mseat))
         = ({ σ with chatRL := (allowChat σ.chatRL cid now).2 },
            [Out.bcast rc room.clients (.chatMsg now cid s (chatName mname) (cleanText mtext))]))
  ∧ (lookupKey room.clientSeat cid = none →
       stepEv σ (.recv cid now (.chat mtext mname mseat))
         = ({ σ with chatRL := (allowChat σ.chatRL cid now).2 },
            [Out.bcast rc room.clients
              (.chatMsg now cid (jsToLower (jsOrStr mseat "spec")) (chatName mname)
                (cleanText mtext))])) := by
  have hstep : stepEv σ (.recv cid now (.chat mtext mname mseat))
      = chatH σ rc room cid now mtext mname mseat := handleMsg_chat_bound hb now mtext mname mseat
  constructor
  · intro s hs hne
    rw [hstep]
    simp only [chatH, hok, hs, hne, Bool.not_true, Bool.false_eq_true, if_false,
      if_neg htext, if_neg hne]
  · intro hnone
    rw [hstep]
    simp only [chatH, hok, hnone, Bool.not_true, Bool.false_eq_true, if_false,
      if_neg htext]

/-- Witness for C7's theorem: client 20 sits in p1; its chat claiming p3 is
broadcast with the authoritative seat p1. -/
theorem chat_seat_authoritative_or_fallback_witness :
    getRoomFromWs ⟨[("AAAAA", ⟨10, [10, 20], none, 0, ⟨some 20, none, none, none⟩, [(20, "p1")]⟩)],
                   [(10, "AAAAA"), (20, "AAAAA")], []⟩ 20
      = some ("AAAAA", ⟨10, [10, 20], none, 0, ⟨some 20, none, none, none⟩, [(20, "p1")]⟩)
  ∧ (allowChat ([] : List (ClientId × RL)) 20 5).1 = true
  ∧ ¬ cleanText (some "hi") = ""
  ∧ lookupKey [(20, "p1")] 20 = some "p1"
  ∧ stepEv ⟨[("AAAAA", ⟨10, [10, 20], none, 0, ⟨some 20, none, none, none⟩, [(20, "p1")]⟩)],
            [(10, "AAAAA"), (20, "AAAAA")], []⟩
        (.recv 20 5 (.chat (some "hi") none (some "p3")))
      = ({ (⟨[("AAAAA", ⟨10, [10, 20], none, 0, ⟨some 20, none, none, none⟩, [(20, "p1")]⟩)],
            [(10, "AAAAA"), (20, "AAAAA")], []⟩ : ServerState) with
           chatRL := (allowChat ([] : List (ClientId × RL)) 20 5).2 },
         [Out.bcast "AAAAA" [10, 20]
           (.chatMsg 5 20 "p1" (chatName none) (cleanText (some "hi")))]) :=
  ⟨by decide, by decide, by decide, by decide,
   (chat_seat_authoritative_or_fallback
      ⟨[("AAAAA", ⟨10, [10, 20], none, 0, ⟨some 20, none, none, none⟩, [(20, "p1")]⟩)],
       [(10, "AAAAA"), (20, "AAAAA")], []⟩ 20 5 (some "hi") none (some "p3") "AAAAA"
      ⟨10, [10, 20], none, 0, ⟨some 20, none, none, none⟩, [(20, "p1")]⟩
      (by decide) (by decide) (by decide)).1 "p1" (by decide) (by decide)⟩

/-! ### C4 -/

/-- C4: when the host of a room closes its connection and at least one
client remains, the surviving room's host becomes the first remaining
member in original join order (the head of the member list with the host
removed), exactly one HOST_CHANGED broadcast naming that client goes to
all remaining members, and no STATE broadcast is emitted by the
transition. -/
theorem host_failover_earliest_join (σ : ServerState) (cid : ClientId) (now : Nat)
    (rc : String) (room : Room) (c0 : ClientId) (rest : List ClientId)
    (hb : getRoomFromWs σ cid = some (rc, room))
    (hhost : room.hostId = cid)
    (hnodup : room.clients.Nodup)
    (herase : room.clients.erase cid = c0 :: rest) :
    (lookupKey (stepEv σ (.close cid now)).1.rooms rc).map Room.hostId = some c0
  ∧ (lookupKey (stepEv σ (.close cid now)).1.rooms rc).map Room.clients = some (c0 :: rest)
  ∧ (stepEv σ (.close cid now)).2.filter isHostChangedOut
      = [Out.bcast rc (c0 :: rest) (.hostChanged c0)]
  ∧ (stepEv σ (.close cid now)).2.filter isStateBcastOut = [] := by
  have hne : cid ∉ room.clients.erase cid := hnodup.not_mem_erase
  rw [herase] at hne
  have hcont : (c0 :: rest).contains cid = false := by simpa using hne
  have ht1 : ¬ jsTrim "A player left the room." = "" := by decide
  have ht2 : ¬ jsTrim "Host changed." = "" := by decide
  simp only [stepEv, closeH, hb, systemChat, emitPresence, releaseSeat_clients,
    releaseSeat_hostId, hhost, herase, hcont, List.isEmpty_cons, Bool.false_eq_true,
    if_false, Bool.not_false, if_true, List.headI, if_neg ht1, if_neg ht2,
    lookupKey_setKey, if_pos rfl, Option.map_some]
  refine ⟨rfl, rfl, ?_, ?_⟩ <;>
    simp [isHostChangedOut, isStateBcastOut, List.filter_append]

/-- Witness for C4's theorem: host 10 leaves a three-client room; client 20
(the earliest surviving joiner) becomes host. -/
theorem host_failover_earliest_join_witness :
    getRoomFromWs ⟨[("AAAAA", ⟨10, [10, 20, 30], none, 0, ⟨none, none, none, none⟩, []⟩)],
                   [(10, "AAAAA"), (20, "AAAAA"), (30, "AAAAA")], []⟩ 10
      = some ("AAAAA", ⟨10, [10, 20, 30], none, 0, ⟨none, none, none, none⟩, []⟩)
  ∧ (⟨10, [10, 20, 30], none, 0, ⟨none, none, none, none⟩, []⟩ : Room).hostId = 10
  ∧ ([10, 20, 30] : List ClientId).Nodup
  ∧ ([10, 20, 30] : List ClientId).erase 10 = [20, 30]
  ∧ ((lookupKey (stepEv ⟨[("AAAAA", ⟨10, [10, 20, 30], none, 0, ⟨none, none, none, none⟩, []⟩)],
                         [(10, "AAAAA"), (20, "AAAAA"), (30, "AAAAA")], []⟩
          (.close 10 7)).1.rooms "AAAAA").map Room.hostId = some 20
      ∧ (lookupKey (stepEv ⟨[("AAAAA", ⟨10, [10, 20, 30], none, 0, ⟨none, none, none, none⟩, []⟩)],
                            [(10, "AAAAA"), (20, "AAAAA"), (30, "AAAAA")], []⟩
          (.close 10 7)).1.rooms "AAAAA").map Room.clients = some [20, 30]
      ∧ (stepEv ⟨[("AAAAA", ⟨10, [10, 20, 30], none, 0, ⟨none, none, none, none⟩, []⟩)],
                 [(10, "AAAAA"), (20, "AAAAA"), (30, "AAAAA")], []⟩
          (.close 10 7)).2.filter isHostChangedOut
          = [Out.bcast "AAAAA" [20, 30] (.hostChanged 20)]
      ∧ (stepEv ⟨[("AAAAA", ⟨10, [10, 20, 30], none, 0, ⟨none, none, none, none⟩, []⟩)],
                 [(10, "AAAAA"), (20, "AAAAA"), (30, "AAAAA")], []⟩
          (.close 10 7)).2.filter isStateBcastOut = []) :=
  ⟨by decide, by decide, by decide, by decide,
   host_failover_earliest_join
     ⟨[("AAAAA", ⟨10, [10, 20, 30], none, 0, ⟨none, none, none, none⟩, []⟩)],
      [(10, "AAAAA"), (20, "AAAAA"), (30, "AAAAA")], []⟩
     10 7 "AAAAA" ⟨10, [10, 20, 30], none, 0, ⟨none, none, none, none⟩, []⟩ 20 [30]
     (by decide) (by decide) (by decide) (by decide)⟩

/-! ### Rate-limiter window lemmas -/

theorem lookupKey_setKey_self {α β : Type} [DecidableEq α] (l : List (α × β)) (k : α) (v : β) :
    lookupKey (setKey l k v) k = some v := by
  rw [lookupKey_setKey]
  simp

theorem setKey_setKey {α β : Type} [DecidableEq α] (l : List (α × β)) (k : α) (v w : β) :
    setKey (setKey l k v) k w = setKey l k w := by
  induction l with
  | nil => simp [setKey]
  | cons p t ih =>
    obtain ⟨k', v'⟩ := p
    by_cases hk : k' = k
    · simp [setKey, hk]
    · simp [setKey, hk, ih]

theorem allowChat_fresh (rl : List (ClientId × RL)) (cid : ClientId) (t : Nat)
    (h : lookupKey rl cid = none) :
    allowChat rl cid t = (true, setKey rl cid ⟨t, 1⟩) := by
  simp [allowChat, h]

theorem allowChat_count {rl : List (ClientId × RL)} {cid : ClientId} {w k : Nat} (t : Nat)
    (h : lookupKey rl cid = some ⟨w, k⟩) (hwin : t - w ≤ 8000) (hk : k < 6) :
    allowChat rl cid t = (true, setKey rl cid ⟨w, k + 1⟩) := by
  simp [allowChat, h, Nat.not_lt.mpr hwin, Nat.not_le.mpr hk]

theorem allowChat_max {rl : List (ClientId × RL)} {cid : ClientId} {w k : Nat} (t : Nat)
    (h : lookupKey rl cid = some ⟨w, k⟩) (hwin : t - w ≤ 8000) (hk : 6 ≤ k) :
    allowChat rl cid t = (false, rl) := by
  simp [allowChat, h, Nat.not_lt.mpr hwin, hk]

theorem allowChat_expired {rl : List (ClientId × RL)} {cid : ClientId} {w k : Nat} (t : Nat)
    (h : lookupKey rl cid = some ⟨w, k⟩) (hwin : t - w > 8000) :
    allowChat rl cid t = (true, setKey rl cid ⟨t, 1⟩) := by
  simp [allowChat, h, hwin]

/-! ### C6 -/

/-- C6: for a client with no current rate-limit window, seven CHAT
attempts whose times all lie within 8000 ms of the first are answered
accepted six times and then rejected; once more than 8000 ms have passed
since the window's start the next attempt is accepted again (count
restarts); and a rejected CHAT produces exactly one rate-limit error reply
to the sender and no broadcast, with rooms and bindings untouched. -/
theorem chat_rate_limit_six_per_window (rl : List (ClientId × RL)) (cid : ClientId)
    (t : Fin 7 → Nat) (t8 : Nat)
    (hfresh : lookupKey rl cid = none)
    (hwin : ∀ i : Fin 7, t i - t 0 ≤ 8000)
    (hafter : t8 - t 0 > 8000) :
    allowChatSeq rl cid [t 0, t 1, t 2, t 3, t 4, t 5, t 6]
      = [true, true, true, true, true, true, false]
  ∧ (allowChat (allowChatSeqRL rl cid [t 0, t 1, t 2, t 3, t 4, t 5, t 6]) cid t8).1 = true
  ∧ ∀ (σ : ServerState) (rc : String) (room : Room) (now : Nat) (mtext mname mseat : Option String),
      getRoomFromWs σ cid = some (rc, room) →
      (allowChat σ.chatRL cid now).1 = false →
      stepEv σ (.recv cid now (.chat mtext mname mseat))
        = ({ σ with chatRL := (allowChat σ.chatRL cid now).2 },
           [Out.send cid (.errorMsg "Chat rate limit. Slow down.")]) := by
  have e1 : allowChat rl cid (t 0) = (true, setKey rl cid ⟨t 0, 1⟩) :=
    allowChat_fresh rl cid (t 0) hfresh
  have e2 : allowChat (setKey rl cid ⟨t 0, 1⟩) cid (t 1) = (true, setKey rl cid ⟨t 0, 2⟩) := by
    rw [allowChat_count (t 1) (lookupKey_setKey_self rl cid _) (hwin 1) (by norm_num),
      setKey_setKey]
  have e3 : allowChat (setKey rl cid ⟨t 0, 2⟩) cid (t 2) = (true, setKey rl cid ⟨t 0, 3⟩) := by
    rw [allowChat_count (t 2) (lookupKey_setKey_self rl cid _) (hwin 2) (by norm_num),
      setKey_setKey]
  have e4 : allowChat (setKey rl cid ⟨t 0, 3⟩) cid (t 3) = (true, setKey rl cid ⟨t 0, 4⟩) := by
    rw [allowChat_count (t 3) (lookupKey_setKey_self rl cid _) (hwin 3) (by norm_num),
      setKey_setKey]
  have e5 : allowChat (setKey rl cid ⟨t 0, 4⟩) cid (t 4) = (true, setKey rl cid ⟨t 0, 5⟩) := by
    rw [allowChat_count (t 4) (lookupKey_setKey_self rl cid _) (hwin 4) (by norm_num),
      setKey_setKey]
  have e6 : allowChat (setKey rl cid ⟨t 0, 5⟩) cid (t 5) = (true, setKey rl cid ⟨t 0, 6⟩) := by
    rw [allowChat_count (t 5) (lookupKey_setKey_self rl cid _) (hwin 5) (by norm_num),
      setKey_setKey]
  have e7 : allowChat (setKey rl cid ⟨t 0, 6⟩) cid (t 6) = (false, setKey rl cid ⟨t 0, 6⟩) :=
    allowChat_max (t 6) (lookupKey_setKey_self rl cid _) (hwin 6) (le_refl 6)
  refine ⟨?_, ?_, ?_⟩
  · simp [allowChatSeq, e1, e2, e3, e4, e5, e6, e7]
  · have hrl : allowChatSeqRL rl cid [t 0, t 1, t 2, t 3, t 4, t 5, t 6]
        = setKey rl cid ⟨t 0, 6⟩ := by
      simp [allowChatSeqRL, e1, e2, e3, e4, e5, e6, e7]
    rw [hrl, allowChat_expired t8 (lookupKey_setKey_self rl cid _) hafter]
  · intro σ rc room now mtext mname mseat hb hfalse
    rw [show stepEv σ (.recv cid now (.chat mtext mname mseat))
          = chatH σ rc room cid now mtext mname mseat
        from handleMsg_chat_bound hb now mtext mname mseat]
    simp only [chatH, hfalse, Bool.not_false, if_true]

/-- Witness for C6's theorem: a fresh client sends at times 0..6 and then
9001, and a sixth-strike client's CHAT is rejected with the error reply. -/
theorem chat_rate_limit_six_per_window_witness :
    lookupKey ([] : List (ClientId × RL)) 5 = none
  ∧ (∀ i : Fin 7, (i : Nat) - ((0 : Fin 7) : Nat) ≤ 8000)
  ∧ (9001 : Nat) - ((0 : Fin 7) : Nat) > 8000
  ∧ allowChatSeq [] 5 [0, 1, 2, 3, 4, 5, 6] = [true, true, true, true, true, true, false]
  ∧ (allowChat (allowChatSeqRL [] 5 [0, 1, 2, 3, 4, 5, 6]) 5 9001).1 = true
  ∧ stepEv ⟨[("AAAAA", ⟨5, [5], none, 0, ⟨none, none, none, none⟩, []⟩)],
            [(5, "AAAAA")], [(5, ⟨0, 6⟩)]⟩
        (.recv 5 100 (.chat (some "hi") none none))
      = ({ (⟨[("AAAAA", ⟨5, [5], none, 0, ⟨none, none, none, none⟩, []⟩)],
            [(5, "AAAAA")], [(5, ⟨0, 6⟩)]⟩ : ServerState) with
           chatRL := (allowChat [(5, ⟨0, 6⟩)] 5 100).2 },
         [Out.send 5 (.errorMsg "Chat rate limit. Slow down.")]) := by
  have h := chat_rate_limit_six_per_window ([] : List (ClientId × RL)) 5
    (fun i => (i : Nat)) 9001 (by decide) (by decide) (by decide)
  exact ⟨by decide, by decide, by decide, h.1, h.2.1,
    h.2.2 ⟨[("AAAAA", ⟨5, [5], none, 0, ⟨none, none, none, none⟩, []⟩)],
           [(5, "AAAAA")], [(5, ⟨0, 6⟩)]⟩ "AAAAA"
      ⟨5, [5], none, 0, ⟨none, none, none, none⟩, []⟩ 100 (some "hi") none none
      (by decide) (by decide)⟩

/-! ### C10 -/

theorem chatH_empty (σ : ServerState) (rc : String) (room : Room) (cid : ClientId)
    (now : Nat) (mtext mname mseat : Option String)
    (hok : (allowChat σ.chatRL cid now).1 = true)
    (hempty : cleanText mtext = "") :
    chatH σ rc room cid now mtext mname mseat
      = ({ σ with chatRL := (allowChat σ.chatRL cid now).2 }, []) := by
  simp only [chatH, hok, Bool.not_true, Bool.false_eq_true, if_false, hempty,
    eq_self_iff_true, if_true]

/-- C10: a CHAT that passes the rate limiter but whose text sanitizes to
the empty string is dropped with no reply and no broadcast while still
consuming rate-limit budget: the handler returns no output but stores the
updated window, and a fresh client that sends six such empty chats within
one window followed by a seventh, non-empty chat gets that seventh
rejected with the rate-limit error — the whole seven-event run emits
exactly that one error reply and never broadcasts anything. -/
theorem empty_chat_consumes_budget (σ : ServerState) (cid : ClientId) (rc : String)
    (room : Room) (t : Fin 7 → Nat) (texts : Fin 6 → Option String) (txt7 : Option String)
    (hb : getRoomFromWs σ cid = some (rc, room))
    (hfresh : lookupKey σ.chatRL cid = none)
    (hwin : ∀ i : Fin 7, t i - t 0 ≤ 8000)
    (hempty : ∀ i : Fin 6, cleanText (texts i) = "")
    (htxt7 : ¬ cleanText txt7 = "") :
    (∀ (σ' : ServerState) (rc' : String) (room' : Room) (cid' : ClientId) (now' : Nat)
        (mt mn ms : Option String),
       getRoomFromWs σ' cid' = some (rc', room') →
       (allowChat σ'.chatRL cid' now').1 = true →
       cleanText mt = "" →
       stepEv σ' (.recv cid' now' (.chat mt mn ms))
         = ({ σ' with chatRL := (allowChat σ'.chatRL cid' now').2 }, []))
  ∧ (run σ [.recv cid (t 0) (.chat (texts 0) none none),
            .recv cid (t 1) (.chat (texts 1) none none),
            .recv cid (t 2) (.chat (texts 2) none none),
            .recv cid (t 3) (.chat (texts 3) none none),
            .recv cid (t 4) (.chat (texts 4) none none),
            .recv cid (t 5) (.chat (texts 5) none none),
            .recv cid (t 6) (.chat txt7 none none)]).2
      = [Out.send cid (.errorMsg "Chat rate limit. Slow down.")] := by
  constructor
  · intro σ' rc' room' cid' now' mt mn ms hb' hok' hmt
    rw [show stepEv σ' (.recv cid' now' (.chat mt mn ms))
          = chatH σ' rc' room' cid' now' mt mn ms from handleMsg_chat_bound hb' now' mt mn ms]
    exact chatH_empty σ' rc' room' cid' now' mt mn ms hok' hmt
  · have e1 : allowChat σ.chatRL cid (t 0) = (true, setKey σ.chatRL cid ⟨t 0, 1⟩) :=
      allowChat_fresh _ cid (t 0) hfresh
    have e2 : allowChat (setKey σ.chatRL cid ⟨t 0, 1⟩) cid (t 1)
        = (true, setKey σ.chatRL cid ⟨t 0, 2⟩) := by
      rw [allowChat_count (t 1) (lookupKey_setKey_self _ cid _) (hwin 1) (by norm_num),
        setKey_setKey]
    have e3 : allowChat (setKey σ.chatRL cid ⟨t 0, 2⟩) cid (t 2)
        = (true, setKey σ.chatRL cid ⟨t 0, 3⟩) := by
      rw [allowChat_count (t 2) (lookupKey_setKey_self _ cid _) (hwin 2) (by norm_num),
        setKey_setKey]
    have e4 : allowChat (setKey σ.chatRL cid ⟨t 0, 3⟩) cid (t 3)
        = (true, setKey σ.chatRL cid ⟨t 0, 4⟩) := by
      rw [allowChat_count (t 3) (lookupKey_setKey_self _ cid _) (hwin 3) (by norm_num),
        setKey_setKey]
    have e5 : allowChat (setKey σ.chatRL cid ⟨t 0, 4⟩) cid (t 4)
        = (true, setKey σ.chatRL cid ⟨t 0, 5⟩) := by
      rw [allowChat_count (t 4) (lookupKey_setKey_self _ cid _) (hwin 4) (by norm_num),
        setKey_setKey]
    have e6 : allowChat (setKey σ.chatRL cid ⟨t 0, 5⟩) cid (t 5)
        = (true, setKey σ.chatRL cid ⟨t 0, 6⟩) := by
      rw [allowChat_count (t 5) (lookupKey_setKey_self _ cid _) (hwin 5) (by norm_num),
        setKey_setKey]
    have e7 : allowChat (setKey σ.chatRL cid ⟨t 0, 6⟩) cid (t 6)
        = (false, setKey σ.chatRL cid ⟨t 0, 6⟩) :=
      allowChat_max (t 6) (lookupKey_setKey_self _ cid _) (hwin 6) (le_refl 6)
    have s1 : stepEv σ (.recv cid (t 0) (.chat (texts 0) none none))
        = ({ σ with chatRL := setKey σ.chatRL cid ⟨t 0, 1⟩ }, []) := by
      rw [show stepEv σ (.recv cid (t 0) (.chat (texts 0) none none))
            = chatH σ rc room cid (t 0) (texts 0) none none
          from handleMsg_chat_bound hb (t 0) (texts 0) none none,
        chatH_empty _ _ _ _ _ _ _ _ (by rw [e1]) (hempty 0), e1]
    have s2 : stepEv { σ with chatRL := setKey σ.chatRL cid ⟨t 0, 1⟩ }
          (.recv cid (t 1) (.chat (texts 1) none none))
        = ({ σ with chatRL := setKey σ.chatRL cid ⟨t 0, 2⟩ }, []) := by
      rw [show stepEv { σ with chatRL := setKey σ.chatRL cid ⟨t 0, 1⟩ }
              (.recv cid (t 1) (.chat (texts 1) none none))
            = chatH { σ with chatRL := setKey σ.chatRL cid ⟨t 0, 1⟩ } rc room cid (t 1)
                (texts 1) none none
          from @handleMsg_chat_bound
            { σ with chatRL := setKey σ.chatRL cid ⟨t 0, 1⟩ } cid rc room hb
            (t 1) (texts 1) none none,
        chatH_empty _ _ _ _ _ _ _ _ (by rw [show ({ σ with chatRL := setKey σ.chatRL cid ⟨t 0, 1⟩ } : ServerState).chatRL = setKey σ.chatRL cid ⟨t 0, 1⟩ from rfl, e2]) (hempty 1)]
      rw [show ({ σ with chatRL := setKey σ.chatRL cid ⟨t 0, 1⟩ } : ServerState).chatRL
            = setKey σ.chatRL cid ⟨t 0, 1⟩ from rfl, e2]
    have s3 : stepEv { σ with chatRL := setKey σ.chatRL cid ⟨t 0, 2⟩ }
          (.recv cid (t 2) (.chat (texts 2) none none))
        = ({ σ with chatRL := setKey σ.chatRL cid ⟨t 0, 3⟩ }, []) := by
      rw [show stepEv { σ with chatRL := setKey σ.chatRL cid ⟨t 0, 2⟩ }
              (.recv cid (t 2) (.chat (texts 2) none none))
            = chatH { σ with chatRL := setKey σ.chatRL cid ⟨t 0, 2⟩ } rc room cid (t 2)
                (texts 2) none none
          from @handleMsg_chat_bound
            { σ with chatRL := setKey σ.chatRL cid ⟨t 0, 2⟩ } cid rc room hb
            (t 2) (texts 2) none none,
        chatH_empty _ _ _ _ _ _ _ _ (by rw [show ({ σ with chatRL := setKey σ.chatRL cid ⟨t 0, 2⟩ } : ServerState).chatRL = setKey σ.chatRL cid ⟨t 0, 2⟩ from rfl, e3]) (hempty 2)]
      rw [show ({ σ with chatRL := setKey σ.chatRL cid ⟨t 0, 2⟩ } : ServerState).chatRL
            = setKey σ.chatRL cid ⟨t 0, 2⟩ from rfl, e3]
    have s4 : stepEv { σ with chatRL := setKey σ.chatRL cid ⟨t 0, 3⟩ }
          (.recv cid (t 3) (.chat (texts 3) none none))
        = ({ σ with chatRL := setKey σ.chatRL cid ⟨t 0, 4⟩ }, []) := by
      rw [show stepEv { σ with chatRL := setKey σ.chatRL cid ⟨t 0, 3⟩ }
              (.recv cid (t 3) (.chat (texts 3) none none))
            = chatH { σ with chatRL := setKey σ.chatRL cid ⟨t 0, 3⟩ } rc room cid (t 3)
                (texts 3) none none
          from @handleMsg_chat_bound
            { σ with chatRL := setKey σ.chatRL cid ⟨t 0, 3⟩ } cid rc room hb
            (t 3) (texts 3) none none,
        chatH_empty _ _ _ _ _ _ _ _ (by rw [show ({ σ with chatRL := setKey σ.chatRL cid ⟨t 0, 3⟩ } : ServerState).chatRL = setKey σ.chatRL cid ⟨t 0, 3⟩ from rfl, e4]) (hempty 3)]
      rw [show ({ σ with chatRL := setKey σ.chatRL cid ⟨t 0, 3⟩ } : ServerState).chatRL
            = setKey σ.chatRL cid ⟨t 0, 3⟩ from rfl, e4]
    have s5 : stepEv { σ with chatRL := setKey σ.chatRL cid ⟨t 0, 4⟩ }
          (.recv cid (t 4) (.chat (texts 4) none none))
        = ({ σ with chatRL := setKey σ.chatRL cid ⟨t 0, 5⟩ }, []) := by
      rw [show stepEv { σ with chatRL := setKey σ.chatRL cid ⟨t 0, 4⟩ }
              (.recv cid (t 4) (.chat (texts 4) none none))
            = chatH { σ with chatRL := setKey σ.chatRL cid ⟨t 0, 4⟩ } rc room cid (t 4)
                (texts 4) none none
          from @handleMsg_chat_bound
            { σ with chatRL := setKey σ.chatRL cid ⟨t 0, 4⟩ } cid rc room hb
            (t 4) (texts 4) none none,
        chatH_empty _ _ _ _ _ _ _ _ (by rw [show ({ σ with chatRL := setKey σ.chatRL cid ⟨t 0, 4⟩ } : ServerState).chatRL = setKey σ.chatRL cid ⟨t 0, 4⟩ from rfl, e5]) (hempty 4)]
      rw [show ({ σ with chatRL := setKey σ.chatRL cid ⟨t 0, 4⟩ } : ServerState).chatRL
            = setKey σ.chatRL cid ⟨t 0, 4⟩ from rfl, e5]
    have s6 : stepEv { σ with chatRL := setKey σ.chatRL cid ⟨t 0, 5⟩ }
          (.recv cid (t 5) (.chat (texts 5) none none))
        = ({ σ with chatRL := setKey σ.chatRL cid ⟨t 0, 6⟩ }, []) := by
      rw [show stepEv { σ with chatRL := setKey σ.chatRL cid ⟨t 0, 5⟩ }
              (.recv cid (t 5) (.chat (texts 5) none none))
            = chatH { σ with chatRL := setKey σ.chatRL cid ⟨t 0, 5⟩ } rc room cid (t 5)
                (texts 5) none none
          from @handleMsg_chat_bound
            { σ with chatRL := setKey σ.chatRL cid ⟨t 0, 5⟩ } cid rc room hb
            (t 5) (texts 5) none none,
        chatH_empty _ _ _ _ _ _ _ _ (by rw [show ({ σ with chatRL := setKey σ.chatRL cid ⟨t 0, 5⟩ } : ServerState).chatRL = setKey σ.chatRL cid ⟨t 0, 5⟩ from rfl, e6]) (hempty 5)]
      rw [show ({ σ with chatRL := setKey σ.chatRL cid ⟨t 0, 5⟩ } : ServerState).chatRL
            = setKey σ.chatRL cid ⟨t 0, 5⟩ from rfl, e6]
    have s7 : stepEv { σ with chatRL := setKey σ.chatRL cid ⟨t 0, 6⟩ }
          (.recv cid (t 6) (.chat txt7 none none))
        = ({ σ with chatRL := setKey σ.chatRL cid ⟨t 0, 6⟩ },
           [Out.send cid (.errorMsg "Chat rate limit. Slow down.")]) := by
      rw [show stepEv { σ with chatRL := setKey σ.chatRL cid ⟨t 0, 6⟩ }
              (.recv cid (t 6) (.chat txt7 none none))
            = chatH { σ with chatRL := setKey σ.chatRL cid ⟨t 0, 6⟩ } rc room cid (t 6)
                txt7 none none
          from @handleMsg_chat_bound
            { σ with chatRL := setKey σ.chatRL cid ⟨t 0, 6⟩ } cid rc room hb
            (t 6) txt7 none none]
      simp only [chatH,
        show ({ σ with chatRL := setKey σ.chatRL cid ⟨t 0, 6⟩ } : ServerState).chatRL
          = setKey σ.chatRL cid ⟨t 0, 6⟩ from rfl, e7, Bool.not_false, if_true]
    simp only [run, s1, s2, s3, s4, s5, s6, s7, List.nil_append, List.append_nil]

/-- Witness for C10's theorem: client 9 sends six whitespace-only chats at
times 0..5 and a real one at time 6; only the rate-limit error is emitted. -/
theorem empty_chat_consumes_budget_witness :
    getRoomFromWs ⟨[("AAAAA", ⟨9, [9], none, 0, ⟨none, none, none, none⟩, []⟩)],
                   [(9, "AAAAA")], []⟩ 9
      = some ("AAAAA", ⟨9, [9], none, 0, ⟨none, none, none, none⟩, []⟩)
  ∧ lookupKey ([] : List (ClientId × RL)) 9 = none
  ∧ (∀ i : Fin 7, (i : Nat) - ((0 : Fin 7) : Nat) ≤ 8000)
  ∧ (∀ i : Fin 6, cleanText (some " ") = "")
  ∧ ¬ cleanText (some "yo") = ""
  ∧ (run ⟨[("AAAAA", ⟨9, [9], none, 0, ⟨none, none, none, none⟩, []⟩)],
          [(9, "AAAAA")], []⟩
        [.recv 9 0 (.chat (some " ") none none),
         .recv 9 1 (.chat (some " ") none none),
         .recv 9 2 (.chat (some " ") none none),
         .recv 9 3 (.chat (some " ") none none),
         .recv 9 4 (.chat (some " ") none none),
         .recv 9 5 (.chat (some " ") none none),
         .recv 9 6 (.chat (some "yo") none none)]).2
      = [Out.send 9 (.errorMsg "Chat rate limit. Slow down.")] :=
  ⟨by decide, by decide, by decide, by decide, by decide,
   (empty_chat_consumes_budget
      ⟨[("AAAAA", ⟨9, [9], none, 0, ⟨none, none, none, none⟩, []⟩)], [(9, "AAAAA")], []⟩
      9 "AAAAA" ⟨9, [9], none, 0, ⟨none, none, none, none⟩, []⟩
      (fun i => (i : Nat)) (fun _ => some " ") (some "yo")
      (by decide) (by decide) (by decide) (by decide) (by decide)).2⟩

/-! ### C3 infrastructure -/

theorem seatConsistent_iff (room : Room) :
    seatConsistent room = true ↔ SeatsConsistentP room := by
  constructor
  · intro h s c hs hget
    simp only [seatConsistent, Bool.and_eq_true] at h
    obtain ⟨⟨⟨h1, h2⟩, h3⟩, h4⟩ := h
    simp only [playerSlots, List.mem_cons, List.not_mem_nil, or_false] at hs
    rcases hs with rfl | rfl | rfl | rfl
    · simp [Seats.get] at hget
      rw [hget] at h1
      simpa using h1
    · simp [Seats.get] at hget
      rw [hget] at h2
      simpa using h2
    · simp [Seats.get] at hget
      rw [hget] at h3
      simpa using h3
    · simp [Seats.get] at hget
      rw [hget] at h4
      simpa using h4
  · intro h
    simp only [seatConsistent, Bool.and_eq_true]
    refine ⟨⟨⟨?_, ?_⟩, ?_⟩, ?_⟩
    · rcases h1 : room.seats.p1 with _ | c
      · rfl
      · simpa using h "p1" c (by simp [playerSlots]) (by simp [Seats.get, h1])
    · rcases h2 : room.seats.p2 with _ | c
      · rfl
      · simpa using h "p2" c (by simp [playerSlots]) (by simp [Seats.get, h2])
    · rcases h3 : room.seats.p3 with _ | c
      · rfl
      · simpa using h "p3" c (by simp [playerSlots]) (by simp [Seats.get, h3])
    · rcases h4 : room.seats.p4 with _ | c
      · rfl
      · simpa using h "p4" c (by simp [playerSlots]) (by simp [Seats.get, h4])

theorem releaseSeat_consistent (room : Room) (cid : ClientId) (h : SeatsConsistentP room) :
    SeatsConsistentP (releaseSeat room cid)
  ∧ ∀ s, s ∈ playerSlots → ¬ (releaseSeat room cid).seats.get s = some cid := by
  unfold releaseSeat
  rcases hcs : lookupKey room.clientSeat cid with _ | prev
  · refine ⟨h, ?_⟩
    intro s hs hget
    have h2 := h s cid hs hget
    rw [hcs] at h2
    exact Option.noConfusion h2
  · dsimp only
    split_ifs with hcond
    · obtain ⟨hprev, hpget⟩ := hcond
      constructor
      · intro s c hs hget
        by_cases hsp : prev = s
        · subst hsp
          rw [Seats.get_set_same _ _ _ hprev] at hget
          exact absurd hget (by simp)
        · rw [Seats.get_set_other _ _ _ _ hsp] at hget
          exact h s c hs hget
      · intro s hs hget
        by_cases hsp : prev = s
        · subst hsp
          rw [Seats.get_set_same _ _ _ hprev] at hget
          exact absurd hget (by simp)
        · rw [Seats.get_set_other _ _ _ _ hsp] at hget
          have h2 := h s cid hs hget
          rw [hcs] at h2
          exact hsp (by simpa using h2)
    · refine ⟨h, ?_⟩
      intro s hs hget
      have h2 := h s cid hs hget
      rw [hcs] at h2
      have heq : prev = s := by simpa using h2
      subst heq
      exact hcond ⟨hs, hget⟩

theorem setSpec_consistent (room : Room) (cid : ClientId) (v : String)
    (h : SeatsConsistentP room)
    (hno : ∀ s, s ∈ playerSlots → ¬ room.seats.get s = some cid) :
    SeatsConsistentP { room with clientSeat := setKey room.clientSeat cid v } := by
  intro s c hs hget
  have hcne : ¬ c = cid := fun he => hno s hs (he ▸ hget)
  show lookupKey (setKey room.clientSeat cid v) c = some s
  rw [lookupKey_setKey, if_neg (fun he => hcne he.symm)]
  exact h s c hs hget

theorem eraseSeat_consistent (room : Room) (cid : ClientId)
    (h : SeatsConsistentP room)
    (hno : ∀ s, s ∈ playerSlots → ¬ room.seats.get s = some cid) :
    SeatsConsistentP { room with clientSeat := eraseKey room.clientSeat cid } := by
  intro s c hs hget
  have hcne : ¬ c = cid := fun he => hno s hs (he ▸ hget)
  show lookupKey (eraseKey room.clientSeat cid) c = some s
  rw [lookupKey_eraseKey, if_neg (fun he => hcne he.symm)]
  exact h s c hs hget

theorem assignSeat_consistent (room : Room) (cid : ClientId) (want : String)
    (hw : want ∈ playerSlots)
    (h : SeatsConsistentP room)
    (hno : ∀ s, s ∈ playerSlots → ¬ room.seats.get s = some cid) :
    SeatsConsistentP { room with seats := room.seats.set want (some cid),
                                 clientSeat := setKey room.clientSeat cid want } := by
  intro s c hs hget
  show lookupKey (setKey room.clientSeat cid want) c = some s
  by_cases hws : want = s
  · subst hws
    have hget2 : (room.seats.set want (some cid)).get want = some c := hget
    rw [Seats.get_set_same _ _ _ hw] at hget2
    have hc : c = cid := by simpa using hget2.symm
    subst hc
    rw [lookupKey_setKey, if_pos rfl]
  · have hget2 : (room.seats.set want (some cid)).get s = some c := hget
    rw [Seats.get_set_other _ _ _ _ hws] at hget2
    have hcne : ¬ c = cid := fun he => hno s hs (he ▸ hget2)
    rw [lookupKey_setKey, if_neg (fun he => hcne he.symm)]
    exact h s c hs hget2

theorem seats_empty_get (s : String) :
    Seats.get ⟨none, none, none, none⟩ s = none := by
  unfold Seats.get
  split_ifs <;> rfl

/-! ### C3 -/

/-- C3 counterexample: after client 10 claims p1, client 20 claims p2, and
client 10 then requests the occupied p2 (releasing p1 before being
rejected), the tables are NOT mutually consistent: `clientSeat[10]` still
says "p1" while `seats.p1` is empty — the reverse direction of the claimed
invariant fails between two processed events. -/
theorem seat_tables_mutual_consistency_cex :
    (lookupKey (run ⟨[], [], []⟩
        [.recv 10 0 (.createRoom [[0, 0, 0, 0, 0]]),
         .recv 20 0 (.joinRoom (some "AAAAA")),
         .recv 10 0 (.claimSeat (some "p1")),
         .recv 20 0 (.claimSeat (some "p2")),
         .recv 10 0 (.claimSeat (some "p2"))]).1.rooms "AAAAA").map
      (fun r => (lookupKey r.clientSeat 10, r.seats.p1))
      = some (some "p1", none) := by
  decide

/-- C3 (amended: only the forward direction of the invariant holds — every
occupied player slot points back through `clientSeat`, but a `clientSeat`
entry may dangle on a released slot after a rejected CLAIM_SEAT, so the
converse direction is dropped): forward seat consistency of every
registered room is preserved by every event the server processes. -/
theorem seat_forward_consistency_preserved (σ : ServerState) (e : Event)
    (h : allSeatsConsistent σ = true) : allSeatsConsistent (stepEv σ e).1 = true := by
  have hP : ∀ p ∈ σ.rooms, SeatsConsistentP p.2 := by
    intro p hp
    exact (seatConsistent_iff p.2).mp (List.all_eq_true.mp h p hp)
  suffices hS : ∀ p ∈ (stepEv σ e).1.rooms, SeatsConsistentP p.2 by
    refine List.all_eq_true.mpr ?_
    intro p hp
    exact (seatConsistent_iff p.2).mpr (hS p hp)
  cases e with
  | close cid now =>
    show ∀ p ∈ (closeH σ cid now).1.rooms, SeatsConsistentP p.2
    rcases hroom : getRoomFromWs σ cid with _ | ⟨rc, room⟩
    · simpa [closeH, hroom] using hP
    · have hRoomP : SeatsConsistentP room :=
        hP (rc, room) (lookupKey_mem (getRoomFromWs_rooms hroom))
      have hRel := releaseSeat_consistent { room with clients := room.clients.erase cid } cid hRoomP
      have hSC3 : SeatsConsistentP
          { releaseSeat { room with clients := room.clients.erase cid } cid with
            clientSeat := eraseKey
              (releaseSeat { room with clients := room.clients.erase cid } cid).clientSeat cid } :=
        eraseSeat_consistent _ cid hRel.1 hRel.2
      simp only [closeH, hroom]
      split_ifs with h1 h2
      · intro p hp
        exact hP p (mem_eraseKey hp)
      · intro p hp
        rcases mem_setKey hp with rfl | hmem
        · exact hSC3
        · exact hP p hmem
      · intro p hp
        rcases mem_setKey hp with rfl | hmem
        · exact hSC3
        · exact hP p hmem
  | recv cid now m =>
    cases m with
    | createRoom pickss =>
      show ∀ p ∈ (createRoomH σ cid now pickss).1.rooms, SeatsConsistentP p.2
      rcases halloc : allocCode pickss σ.rooms with _ | code
      · simpa [createRoomH, halloc] using hP
      · simp only [createRoomH, halloc]
        intro p hp
        rcases mem_setKey hp with rfl | hmem
        · intro s c hs hget
          rw [seats_empty_get] at hget
          exact Option.noConfusion hget
        · exact hP p hmem
    | joinRoom mrc =>
      show ∀ p ∈ (joinRoomH σ cid now mrc).1.rooms, SeatsConsistentP p.2
      rcases hlk : lookupKey σ.rooms (jsToUpper (jsOrStr mrc "")) with _ | room
      · simpa [joinRoomH, hlk] using hP
      · simp only [joinRoomH, hlk]
        intro p hp
        rcases mem_setKey hp with rfl | hmem
        · exact hP (jsToUpper (jsOrStr mrc ""), room) (lookupKey_mem hlk)
        · exact hP p hmem
    | publishState v st =>
      show ∀ p ∈ (handleMsg σ cid now (.publishState v st)).1.rooms, SeatsConsistentP p.2
      rcases hroom : getRoomFromWs σ cid with _ | ⟨rc, room⟩
      · simpa [handleMsg, hroom] using hP
      · have hRoomP : SeatsConsistentP room :=
          hP (rc, room) (lookupKey_mem (getRoomFromWs_rooms hroom))
        simp only [handleMsg, hroom, publishStateH]
        split_ifs
        · exact hP
        · exact hP
        · exact hP
        · intro p hp
          rcases mem_setKey hp with rfl | hmem
          · exact hRoomP
          · exact hP p hmem
    | action a =>
      show ∀ p ∈ (handleMsg σ cid now (.action a)).1.rooms, SeatsConsistentP p.2
      rcases hroom : getRoomFromWs σ cid with _ | ⟨rc, room⟩
      · simpa [handleMsg, hroom] using hP
      · simp only [handleMsg, hroom, actionH]
        split_ifs <;> exact hP
    | chat mt mn ms =>
      show ∀ p ∈ (handleMsg σ cid now (.chat mt mn ms)).1.rooms, SeatsConsistentP p.2
      rcases hroom : getRoomFromWs σ cid with _ | ⟨rc, room⟩
      · simpa [handleMsg, hroom] using hP
      · simp only [handleMsg, hroom, chatH]
        split_ifs <;> exact hP
    | claimSeat mseat =>
      show ∀ p ∈ (handleMsg σ cid now (.claimSeat mseat)).1.rooms, SeatsConsistentP p.2
      rcases hroom : getRoomFromWs σ cid with _ | ⟨rc, room⟩
      · simpa [handleMsg, hroom] using hP
      · have hRoomP : SeatsConsistentP room :=
          hP (rc, room) (lookupKey_mem (getRoomFromWs_rooms hroom))
        have hRel := releaseSeat_consistent room cid hRoomP
        simp only [handleMsg, hroom, claimSeatH]
        split_ifs with h1 h2 h3
        · intro p hp
          rcases mem_setKey hp with rfl | hmem
          · exact setSpec_consistent _ cid _ hRel.1 hRel.2
          · exact hP p hmem
        · intro p hp
          rcases mem_setKey hp with rfl | hmem
          · exact hRel.1
          · exact hP p hmem
        · intro p hp
          rcases mem_setKey hp with rfl | hmem
          · refine assignSeat_consistent _ cid (jsToLower (jsOrStr mseat "")) ?_ hRel.1 hRel.2
            have h5 : jsToLower (jsOrStr mseat "") ∈ ["p1", "p2", "p3", "p4", "spec"] := h1
            simp only [List.mem_cons, List.not_mem_nil, or_false] at h5
            simp only [playerSlots, List.mem_cons, List.not_mem_nil, or_false]
            rcases h5 with h | h | h | h | h
            · exact Or.inl h
            · exact Or.inr (Or.inl h)
            · exact Or.inr (Or.inr (Or.inl h))
            · exact Or.inr (Or.inr (Or.inr h))
            · exact absurd h h2
          · exact hP p hmem
        · exact hP

/-- Witness for C3's amended theorem: a forward-consistent two-client room
(including a dangling reverse entry for client 10, which forward
consistency permits) stays forward-consistent across a CLAIM_SEAT event. -/
theorem seat_forward_consistency_preserved_witness :
    allSeatsConsistent
        ⟨[("AAAAA", ⟨10, [10, 20], none, 0, ⟨none, some 20, none, none⟩,
           [(10, "p1"), (20, "p2")]⟩)],
         [(10, "AAAAA"), (20, "AAAAA")], []⟩ = true
  ∧ allSeatsConsistent
      (stepEv ⟨[("AAAAA", ⟨10, [10, 20], none, 0, ⟨none, some 20, none, none⟩,
                 [(10, "p1"), (20, "p2")]⟩)],
               [(10, "AAAAA"), (20, "AAAAA")], []⟩
        (.recv 20 0 (.claimSeat (some "p1")))).1 = true :=
  ⟨by decide,
   seat_forward_consistency_preserved
     ⟨[("AAAAA", ⟨10, [10, 20], none, 0, ⟨none, some 20, none, none⟩,
        [(10, "p1"), (20, "p2")]⟩)],
      [(10, "AAAAA"), (20, "AAAAA")], []⟩
     (.recv 20 0 (.claimSeat (some "p1"))) (by decide)⟩

/-! ### C2 infrastructure -/

theorem releaseSeat_version (room : Room) (cid : ClientId) :
    (releaseSeat room cid).version = room.version :=
  (releaseSeat_fields room cid).2.2.2.1

theorem sbv_nil (rc : String) : stateBcastVersions rc [] = [] := rfl

theorem sbv_append (rc : String) (a b : List Out) :
    stateBcastVersions rc (a ++ b) = stateBcastVersions rc a ++ stateBcastVersions rc b :=
  List.filterMap_append a b _

theorem sbv_send (rc : String) (c : ClientId) (m : ServerMsg) (t : List Out) :
    stateBcastVersions rc (Out.send c m :: t) = stateBcastVersions rc t := rfl

theorem sbv_chatSys (rc rc' : String) (cl : List ClientId) (ts : Nat) (txt : String)
    (t : List Out) :
    stateBcastVersions rc (Out.bcast rc' cl (.chatSys ts txt) :: t)
      = stateBcastVersions rc t := rfl

theorem sbv_chatMsg (rc rc' : String) (cl : List ClientId) (ts : Nat) (frm : ClientId)
    (seat nm txt : String) (t : List Out) :
    stateBcastVersions rc (Out.bcast rc' cl (.chatMsg ts frm seat nm txt) :: t)
      = stateBcastVersions rc t := rfl

theorem sbv_presence (rc rc' rc2 : String) (cl cl2 : List ClientId) (h : ClientId)
    (seats : Seats) (t : List Out) :
    stateBcastVersions rc (Out.bcast rc' cl (.presence rc2 h cl2 seats) :: t)
      = stateBcastVersions rc t := rfl

theorem sbv_hostChanged (rc rc' : String) (cl : List ClientId) (h : ClientId) (t : List Out) :
    stateBcastVersions rc (Out.bcast rc' cl (.hostChanged h) :: t)
      = stateBcastVersions rc t := rfl

theorem sbv_state (rc rc' : String) (cl : List ClientId) (v : Int) (st : StateVal)
    (t : List Out) :
    stateBcastVersions rc (Out.bcast rc' cl (.stateMsg v st) :: t)
      = if rc' = rc then v :: stateBcastVersions rc t else stateBcastVersions rc t := by
  by_cases h : rc' = rc <;> simp [stateBcastVersions, h]

theorem sbv_systemChat (rc : String) (now : Nat) (rc' : String) (room : Room) (txt : String) :
    stateBcastVersions rc (systemChat now rc' room txt) = [] := by
  unfold systemChat
  dsimp only
  split_ifs <;> rfl

theorem sbv_emitPresence (rc rc' : String) (room : Room) :
    stateBcastVersions rc (emitPresence rc' room) = [] := rfl

theorem version_mono_of_eq {σ σ' : ServerState} {rc : String} (hR : σ'.rooms = σ.rooms) :
    ∀ v v' : Int, roomVersion σ rc = some v → roomVersion σ' rc = some v' → v ≤ v' := by
  intro v v' h1 h2
  unfold roomVersion at h1 h2
  rw [hR, h1] at h2
  exact le_of_eq (Option.some.inj h2)

theorem version_mono_of_set_same {σ σ' : ServerState} {rc rc' : String} {room r' : Room}
    (hR : σ'.rooms = setKey σ.rooms rc' r')
    (hlk : lookupKey σ.rooms rc' = some room) (hver : r'.version = room.version) :
    ∀ v v' : Int, roomVersion σ rc = some v → roomVersion σ' rc = some v' → v ≤ v' := by
  intro v v' h1 h2
  unfold roomVersion at h1 h2
  rw [hR, lookupKey_setKey] at h2
  by_cases h : rc' = rc
  · subst h
    rw [if_pos rfl] at h2
    rw [hlk] at h1
    have hv1 : room.version = v := Option.some.inj h1
    have hv2 : r'.version = v' := Option.some.inj h2
    rw [hver, hv1] at hv2
    exact le_of_eq hv2
  · rw [if_neg h] at h2
    rw [h1] at h2
    exact le_of_eq (Option.some.inj h2)

theorem version_mono_of_set_fresh {σ σ' : ServerState} {rc code : String} {r' : Room}
    (hR : σ'.rooms = setKey σ.rooms code r')
    (hfresh : lookupKey σ.rooms code = none) :
    ∀ v v' : Int, roomVersion σ rc = some v → roomVersion σ' rc = some v' → v ≤ v' := by
  intro v v' h1 h2
  unfold roomVersion at h1 h2
  rw [hR, lookupKey_setKey] at h2
  by_cases h : code = rc
  · subst h
    rw [hfresh] at h1
    simp at h1
  · rw [if_neg h] at h2
    rw [h1] at h2
    exact le_of_eq (Option.some.inj h2)

theorem version_mono_of_erase {σ σ' : ServerState} {rc rc' : String}
    (hR : σ'.rooms = eraseKey σ.rooms rc') :
    ∀ v v' : Int, roomVersion σ rc = some v → roomVersion σ' rc = some v' → v ≤ v' := by
  intro v v' h1 h2
  unfold roomVersion at h1 h2
  rw [hR, lookupKey_eraseKey] at h2
  by_cases h : rc' = rc
  · rw [if_pos h] at h2
    simp at h2
  · rw [if_neg h] at h2
    rw [h1] at h2
    exact le_of_eq (Option.some.inj h2)

theorem version_mono_of_set_ne {σ σ' : ServerState} {rc rc' : String} {r' : Room}
    (hR : σ'.rooms = setKey σ.rooms rc' r') (hne : ¬ rc' = rc) :
    ∀ v v' : Int, roomVersion σ rc = some v → roomVersion σ' rc = some v' → v ≤ v' := by
  intro v v' h1 h2
  unfold roomVersion at h1 h2
  rw [hR, lookupKey_setKey, if_neg hne] at h2
  rw [h1] at h2
  exact le_of_eq (Option.some.inj h2)

/-- One step changes a room's version only upwards, and the STATE
broadcasts it emits for a given room code are exactly: none, or a single
one carrying the new, strictly larger version of that room. -/
theorem stepEv_version_facts (σ : ServerState) (e : Event) (rc : String) :
    (stateBcastVersions rc (stepEv σ e).2 = []
      ∧ ∀ v v' : Int, roomVersion σ rc = some v → roomVersion (stepEv σ e).1 rc = some v' → v ≤ v')
  ∨ (∃ v v' : Int, roomVersion σ rc = some v ∧ roomVersion (stepEv σ e).1 rc = some v'
      ∧ v < v' ∧ stateBcastVersions rc (stepEv σ e).2 = [v']) := by
  cases e with
  | recv cid now m =>
    simp only [stepEv]
    cases m with
    | createRoom pickss =>
      simp only [handleMsg]
      rcases halloc : allocCode pickss σ.rooms with _ | code
      · simp only [createRoomH, halloc]
        exact Or.inl ⟨rfl, version_mono_of_eq rfl⟩
      · have hfresh : lookupKey σ.rooms code = none := by
          have h := List.find?_some halloc
          simpa [Option.isNone_iff_eq_none] using h
        simp only [createRoomH, halloc]
        left
        constructor
        · simp [sbv_append, sbv_send, sbv_systemChat, sbv_emitPresence, sbv_nil]
        · exact version_mono_of_set_fresh rfl hfresh
    | joinRoom mrc =>
      simp only [handleMsg]
      rcases hlk : lookupKey σ.rooms (jsToUpper (jsOrStr mrc "")) with _ | room
      · simp only [joinRoomH, hlk]
        left
        exact ⟨by simp [sbv_send, sbv_nil], version_mono_of_eq rfl⟩
      · simp only [joinRoomH, hlk]
        left
        constructor
        · simp [sbv_append, sbv_send, sbv_systemChat, sbv_emitPresence, sbv_nil,
            apply_ite (stateBcastVersions rc)]
        · exact version_mono_of_set_same rfl hlk rfl
    | publishState ver st =>
      simp only [handleMsg]
      rcases hroom : getRoomFromWs σ cid with _ | ⟨rc0, room⟩
      · exact Or.inl ⟨rfl, version_mono_of_eq rfl⟩
      · have hlk := getRoomFromWs_rooms hroom
        simp only [publishStateH]
        split_ifs with hhost hnone hle
        · exact Or.inl ⟨rfl, version_mono_of_eq rfl⟩
        · exact Or.inl ⟨rfl, version_mono_of_eq rfl⟩
        · exact Or.inl ⟨rfl, version_mono_of_eq rfl⟩
        · by_cases hrc : rc0 = rc
          · right
            subst hrc
            refine ⟨room.version, ver.getD 0, ?_, ?_, not_le.mp hle, ?_⟩
            · unfold roomVersion
              rw [hlk]
              rfl
            · unfold roomVersion
              dsimp only
              rw [lookupKey_setKey, if_pos rfl]
              rfl
            · simp [sbv_state, sbv_nil]
          · left
            constructor
            · simp [sbv_state, hrc, sbv_nil]
            · exact version_mono_of_set_ne rfl hrc
    | action a =>
      simp only [handleMsg]
      rcases hroom : getRoomFromWs σ cid with _ | ⟨rc0, room⟩
      · exact Or.inl ⟨rfl, version_mono_of_eq rfl⟩
      · simp only [actionH]
        split_ifs
        · exact Or.inl ⟨by simp [sbv_send, sbv_nil], version_mono_of_eq rfl⟩
        · exact Or.inl ⟨rfl, version_mono_of_eq rfl⟩
    | chat mt mn ms =>
      simp only [handleMsg]
      rcases hroom : getRoomFromWs σ cid with _ | ⟨rc0, room⟩
      · exact Or.inl ⟨rfl, version_mono_of_eq rfl⟩
      · simp only [chatH]
        split_ifs
        · exact Or.inl ⟨by simp [sbv_send, sbv_nil], version_mono_of_eq rfl⟩
        · exact Or.inl ⟨rfl, version_mono_of_eq rfl⟩
        · exact Or.inl ⟨by simp [sbv_chatMsg, sbv_nil], version_mono_of_eq rfl⟩
    | claimSeat mseat =>
      simp only [handleMsg]
      rcases hroom : getRoomFromWs σ cid with _ | ⟨rc0, room⟩
      · exact Or.inl ⟨rfl, version_mono_of_eq rfl⟩
      · have hlk := getRoomFromWs_rooms hroom
        simp only [claimSeatH]
        split_ifs
        · left
          constructor
          · simp [sbv_append, sbv_send, sbv_systemChat, sbv_emitPresence, sbv_nil]
          · exact version_mono_of_set_same rfl hlk (by simp [releaseSeat_version])
        · left
          constructor
          · simp [sbv_append, sbv_send, sbv_emitPresence, sbv_nil]
          · exact version_mono_of_set_same rfl hlk (releaseSeat_version room cid)
        · left
          constructor
          · simp [sbv_append, sbv_send, sbv_systemChat, sbv_emitPresence, sbv_nil]
          · exact version_mono_of_set_same rfl hlk (by simp [releaseSeat_version])
        · exact Or.inl ⟨by simp [sbv_send, sbv_nil], version_mono_of_eq rfl⟩
  | close cid now =>
    simp only [stepEv]
    rcases hroom : getRoomFromWs σ cid with _ | ⟨rc0, room⟩
    · simp only [closeH, hroom]
      exact Or.inl ⟨rfl, version_mono_of_eq rfl⟩
    · have hlk := getRoomFromWs_rooms hroom
      simp only [closeH, hroom]
      split_ifs with h1 h2
      · exact Or.inl ⟨rfl, version_mono_of_erase rfl⟩
      · left
        constructor
        · simp [sbv_append, sbv_systemChat, sbv_emitPresence, sbv_hostChanged, sbv_nil]
        · exact version_mono_of_set_same rfl hlk (by simp [releaseSeat_version])
      · left
        constructor
        · simp [sbv_append, sbv_systemChat, sbv_emitPresence, sbv_nil]
        · exact version_mono_of_set_same rfl hlk (by simp [releaseSeat_version])

theorem stepEv_version_mono (σ : ServerState) (e : Event) (rc : String) :
    ∀ v v' : Int, roomVersion σ rc = some v → roomVersion (stepEv σ e).1 rc = some v' → v ≤ v' := by
  rcases stepEv_version_facts σ e rc with ⟨_, hm⟩ | ⟨v0, v0', h0, h1, hlt, _⟩
  · exact hm
  · intro v v' hv hv'
    rw [h0] at hv
    rw [h1] at hv'
    have e1 : v0 = v := Option.some.inj hv
    have e2 : v0' = v' := Option.some.inj hv'
    rw [← e1, ← e2]
    exact le_of_lt hlt

theorem aliveThroughout_head {σ : ServerState} {es : List Event} {rc : String}
    (h : aliveThroughout rc σ es = true) : (lookupKey σ.rooms rc).isSome := by
  cases es with
  | nil => simpa [aliveThroughout] using h
  | cons e' es' =>
    simp only [aliveThroughout, Bool.and_eq_true] at h
    exact h.1

theorem runStates_head_version {σ1 : ServerState} {es : List Event} {rc : String}
    (h : aliveThroughout rc σ1 es = true) :
    ∃ v1 : Int, roomVersion σ1 rc = some v1 ∧
      ((runStates σ1 es).filterMap (fun s => roomVersion s rc)).head? = some v1 := by
  have h1 := aliveThroughout_head h
  rcases hlk : lookupKey σ1.rooms rc with _ | room
  · rw [hlk] at h1
    simp at h1
  · refine ⟨room.version, by simp [roomVersion, hlk], ?_⟩
    cases es with
    | nil => simp [runStates, roomVersion, hlk]
    | cons e' es' => simp [runStates, List.filterMap_cons, roomVersion, hlk]

theorem run_version_facts (rc : String) : ∀ (evs : List Event) (σ : ServerState),
    aliveThroughout rc σ evs = true →
    ∃ v0 vf : Int, roomVersion σ rc = some v0 ∧ roomVersion (run σ evs).1 rc = some vf
      ∧ v0 ≤ vf
      ∧ List.Chain' (· < ·) (stateBcastVersions rc (run σ evs).2)
      ∧ ∀ u ∈ stateBcastVersions rc (run σ evs).2, v0 < u ∧ u ≤ vf := by
  intro evs
  induction evs with
  | nil =>
    intro σ halive
    rcases hlk : lookupKey σ.rooms rc with _ | room
    · exfalso
      have h1 := aliveThroughout_head halive
      rw [hlk] at h1
      simp at h1
    · exact ⟨room.version, room.version, by simp [roomVersion, hlk],
        by simp [run, roomVersion, hlk], le_refl _, by simp [run, sbv_nil],
        by simp [run, sbv_nil]⟩
  | cons e es ih =>
    intro σ halive
    have h2 : aliveThroughout rc (stepEv σ e).1 es = true := by
      simp only [aliveThroughout, Bool.and_eq_true] at halive
      exact halive.2
    obtain ⟨v1, vf, hv1, hvf, hle1, hch, hbd⟩ := ih (stepEv σ e).1 h2
    have h1 := aliveThroughout_head halive
    rcases hlk : lookupKey σ.rooms rc with _ | room
    · rw [hlk] at h1
      simp at h1
    · have hv0 : roomVersion σ rc = some room.version := by simp [roomVersion, hlk]
      rcases stepEv_version_facts σ e rc with ⟨hemp, hmono⟩ | ⟨v, v', hstep0, hstep1, hvlt, hsbv⟩
      · have hmle : room.version ≤ v1 := hmono room.version v1 hv0 hv1
        refine ⟨room.version, vf, hv0, ?_, le_trans hmle hle1, ?_, ?_⟩
        · simp only [run]
          exact hvf
        · simp only [run, sbv_append, hemp, List.nil_append]
          exact hch
        · intro u hu
          simp only [run, sbv_append, hemp, List.nil_append] at hu
          exact ⟨lt_of_le_of_lt hmle (hbd u hu).1, (hbd u hu).2⟩
      · have hveq : v = room.version := Option.some.inj (hstep0.symm.trans hv0)
        have hv1eq : v' = v1 := Option.some.inj (hstep1.symm.trans hv1)
        have hlt1 : room.version < v1 := by
          rw [← hveq, ← hv1eq]
          exact hvlt
        refine ⟨room.version, vf, hv0, ?_, le_trans (le_of_lt hlt1) hle1, ?_, ?_⟩
        · simp only [run]
          exact hvf
        · simp only [run, sbv_append, hsbv, List.singleton_append]
          rw [List.chain'_cons']
          refine ⟨?_, hch⟩
          intro y hy
          have hyB : y ∈ stateBcastVersions rc (run (stepEv σ e).1 es).2 :=
            List.mem_of_mem_head? hy
          rw [hv1eq]
          exact (hbd y hyB).1
        · intro u hu
          simp only [run, sbv_append, hsbv, List.singleton_append, List.mem_cons] at hu
          rcases hu with rfl | hu
          · constructor
            · rw [← hveq]
              exact hvlt
            · rw [hv1eq]
              exact hle1
          · exact ⟨lt_trans hlt1 (hbd u hu).1, (hbd u hu).2⟩

theorem versionTrace_chain (rc : String) : ∀ (evs : List Event) (σ : ServerState),
    aliveThroughout rc σ evs = true →
    List.Chain' (· ≤ ·) ((runStates σ evs).filterMap (fun s => roomVersion s rc)) := by
  intro evs
  induction evs with
  | nil =>
    intro σ _
    rcases hv : roomVersion σ rc with _ | v <;> simp [runStates, hv]
  | cons e es ih =>
    intro σ halive
    have h1 := aliveThroughout_head halive
    have h2 : aliveThroughout rc (stepEv σ e).1 es = true := by
      simp only [aliveThroughout, Bool.and_eq_true] at halive
      exact halive.2
    rcases hlk : lookupKey σ.rooms rc with _ | room
    · rw [hlk] at h1
      simp at h1
    · have hv0 : roomVersion σ rc = some room.version := by simp [roomVersion, hlk]
      simp only [runStates, List.filterMap_cons, hv0]
      rw [List.chain'_cons']
      refine ⟨?_, ih _ h2⟩
      intro y hy
      obtain ⟨v1, hv1, hhead⟩ := runStates_head_version h2
      rw [hhead] at hy
      have hyv : v1 = y := by simpa using hy
      exact stepEv_version_mono σ e rc room.version y hv0 (hyv ▸ hv1)

/-! ### C2 -/

/-- C2: along any run of events during which a room stays registered, the
room's stored version is non-decreasing from state to state, and the
versions carried by the STATE broadcasts emitted for that room are
strictly increasing — a STATE broadcast at version v is never followed by
one for the same room at a version ≤ v. -/
theorem version_monotone_and_state_broadcasts_increasing (σ0 : ServerState)
    (evs : List Event) (rc : String)
    (halive : aliveThroughout rc σ0 evs = true) :
    List.Chain' (· ≤ ·) ((runStates σ0 evs).filterMap (fun s => roomVersion s rc))
  ∧ List.Chain' (· < ·) (stateBcastVersions rc (run σ0 evs).2) := by
  refine ⟨versionTrace_chain rc evs σ0 halive, ?_⟩
  obtain ⟨_, _, _, _, _, hch, _⟩ := run_version_facts rc evs σ0 halive
  exact hch

/-- Witness for C2's theorem: host 10 publishes versions 1 and 5, a stale
publish at 3 is dropped, and a guest joins; versions run 0,1,5,5,5 and the
STATE broadcasts carry 1 then 5. -/
theorem version_monotone_and_state_broadcasts_increasing_witness :
    aliveThroughout "AAAAA"
        ⟨[("AAAAA", ⟨10, [10], none, 0, ⟨none, none, none, none⟩, []⟩)], [(10, "AAAAA")], []⟩
        [.recv 10 1 (.publishState (some 1) 7),
         .recv 10 2 (.publishState (some 5) 8),
         .recv 10 3 (.publishState (some 3) 9),
         .recv 20 4 (.joinRoom (some "AAAAA"))] = true
  ∧ (List.Chain' (· ≤ ·)
        ((runStates ⟨[("AAAAA", ⟨10, [10], none, 0, ⟨none, none, none, none⟩, []⟩)],
                     [(10, "AAAAA")], []⟩
           [.recv 10 1 (.publishState (some 1) 7),
            .recv 10 2 (.publishState (some 5) 8),
            .recv 10 3 (.publishState (some 3) 9),
            .recv 20 4 (.joinRoom (some "AAAAA"))]).filterMap
          (fun s => roomVersion s "AAAAA"))
      ∧ List.Chain' (· < ·)
          (stateBcastVersions "AAAAA"
            (run ⟨[("AAAAA", ⟨10, [10], none, 0, ⟨none, none, none, none⟩, []⟩)],
                  [(10, "AAAAA")], []⟩
              [.recv 10 1 (.publishState (some 1) 7),
               .recv 10 2 (.publishState (some 5) 8),
               .recv 10 3 (.publishState (some 3) 9),
               .recv 20 4 (.joinRoom (some "AAAAA"))]).2)) :=
  ⟨by decide,
   version_monotone_and_state_broadcasts_increasing
     ⟨[("AAAAA", ⟨10, [10], none, 0, ⟨none, none, none, none⟩, []⟩)], [(10, "AAAAA")], []⟩
     [.recv 10 1 (.publishState (some 1) 7),
      .recv 10 2 (.publishState (some 5) 8),
      .recv 10 3 (.publishState (some 3) 9),
      .recv 20 4 (.joinRoom (some "AAAAA"))]
     "AAAAA" (by decide)⟩
